import Mathlib

/-!
# Verification of the AI forex trading bot core

A shallow embedding, over `ℚ`, of the three source modules
`src/lib/aiEngine.ts`, `src/lib/mt5Bridge.ts` and `src/lib/tradingBot.ts`.

Modelling conventions:
* JavaScript numbers are modelled as rationals (`ℚ`); `Math.sqrt` (used in a
  single feature entry whose value never influences control flow) is an
  abstract parameter `sqrtQ`.
* `Math.random()` is modelled as an explicit draw stream `rng : ℕ → ℚ`
  together with a cursor `rngIdx` carried in the bridge state; a real
  execution corresponds to draws with `0 ≤ rng i < 1`.
* `Date.now()` is modelled as a strictly increasing clock `now : ℕ` carried
  in the state (so tickets are unique, as intended by the source).
* The TensorFlow model is abstract: its forward pass is a parameter
  `predict : List ℚ → ℚ × ℚ × ℚ` (the BUY/SELL/HOLD probabilities) and a
  single `model.fit` optimisation step is a parameter
  `step : P → List ℚ → List ℚ → P` on an abstract parameter space `P`.
  The engine's `model` field is assumed initialised (non-null).
* Methods that can `throw` return an `Except String α` paired with the
  state at the moment of return/throw.
-/

/- Batteries marks the rational operations `@[irreducible]`, which stops
`decide` from evaluating concrete states.  Re-enable unfolding locally so
that concrete runs of the embedded program can be checked by `decide`. -/
set_option allowUnsafeReducibility true
attribute [local semireducible] Rat.add Rat.sub Rat.mul Rat.div Rat.inv Rat.neg
  Rat.normalize Rat.ofScientific

/-- The `'BUY' | 'SELL' | 'HOLD'` string union of `aiEngine.ts`. -/
inductive TradeAction where
  | BUY
  | SELL
  | HOLD
deriving DecidableEq

/-- `MarketData` from `aiEngine.ts` (one OHLCV candle).  The `open` field is
called `openP` because `open` is a Lean keyword. -/
structure MarketData where
  timestamp : ℕ
  openP : ℚ
  high : ℚ
  low : ℚ
  close : ℚ
  volume : ℚ
deriving DecidableEq

/-- Placeholder candle used for out-of-range indexing; the JavaScript source
would crash (`undefined`) there, and no theorem below depends on it. -/
def dummyCandle : MarketData := ⟨0, 0, 0, 0, 0, 0⟩

/-- `TradeSignal` from `aiEngine.ts`. -/
structure TradeSignal where
  action : TradeAction
  confidence : ℚ
  stopLoss : ℚ
  takeProfit : ℚ
  lotSize : ℚ
  reasoning : String
deriving DecidableEq

/-- The record returned by `calculateMACD`. -/
structure MACDResult where
  macd : ℚ
  signal : ℚ
  histogram : ℚ
deriving DecidableEq

/-- `calculateSMA` from `aiEngine.ts`: mean of the last `period` elements,
falling back to the last element when the data is shorter than `period`. -/
def calculateSMA (data : List ℚ) (period : ℕ) : ℚ :=
  if data.length < period then data.getLastD 0
  else (data.drop (data.length - period)).foldl (· + ·) 0 / period

/-- `calculateEMA` from `aiEngine.ts`: seeded with the SMA of the first
`period` elements, then folded forward with multiplier `2/(period+1)`. -/
def calculateEMA (data : List ℚ) (period : ℕ) : ℚ :=
  if data.length < period then data.getLastD 0
  else
    let multiplier : ℚ := 2 / (period + 1)
    let seed := calculateSMA (data.take period) period
    (data.drop period).foldl (fun ema x => (x - ema) * multiplier + ema) seed

/-- Consecutive differences `data[i] - data[i-1]` of a list. -/
def deltas : List ℚ → List ℚ
  | a :: b :: rest => (b - a) :: deltas (b :: rest)
  | _ => []

/-- The summed positive moves of the last `period` deltas (the `gains`
accumulator of `calculateRSI`). -/
def rsiGains (data : List ℚ) (period : ℕ) : ℚ :=
  (deltas (data.drop (data.length - (period + 1)))).foldl
    (fun g c => if 0 < c then g + c else g) 0

/-- The summed (negated) negative moves of the last `period` deltas (the
`losses` accumulator of `calculateRSI`). -/
def rsiLosses (data : List ℚ) (period : ℕ) : ℚ :=
  (deltas (data.drop (data.length - (period + 1)))).foldl
    (fun l c => if 0 < c then l else l - c) 0

/-- `calculateRSI` from `aiEngine.ts`.  The loop over
`i ∈ [len-period, len-1]` touches exactly the consecutive deltas of the last
`period + 1` elements. -/
def calculateRSI (data : List ℚ) (period : ℕ := 14) : ℚ :=
  if data.length < period + 1 then 50
  else
    let avgGain := rsiGains data period / period
    let avgLoss := rsiLosses data period / period
    if avgLoss = 0 then 100
    else
      let rs := avgGain / avgLoss
      100 - 100 / (1 + rs)

/-- `calculateMACD` from `aiEngine.ts`.  Note the source feeds the single
current MACD value through a 9-period EMA (`[macd]` has length 1 < 9, so the
EMA degenerates to its argument). -/
def calculateMACD (data : List ℚ) : MACDResult :=
  let ema12 := calculateEMA data 12
  let ema26 := calculateEMA data 26
  let macd := ema12 - ema26
  let macdLine := [macd]
  let signal := calculateEMA macdLine 9
  let histogram := macd - signal
  ⟨macd, signal, histogram⟩

/-- The record returned by `calculateBollingerBands`. -/
structure BollingerBands where
  upper : ℚ
  middle : ℚ
  lower : ℚ
deriving DecidableEq

/-- Rational square root parameter: stands for `Math.sqrt`, which has no
exact rational counterpart.  Every theorem below is quantified over it. -/
def SqrtFun : Type := ℚ → ℚ

/-- `calculateBollingerBands` from `aiEngine.ts`. -/
def calculateBollingerBands (sqrtQ : SqrtFun) (data : List ℚ) (period : ℕ := 20) :
    BollingerBands :=
  let sma := calculateSMA data period
  let slice := data.drop (data.length - period)
  let variance := slice.foldl (fun sum val => sum + (val - sma) ^ 2) 0 / period
  let stdDev := sqrtQ variance
  ⟨sma + 2 * stdDev, sma, sma - 2 * stdDev⟩

/-- The per-bar true range list of `calculateATR` (built over consecutive
candle pairs, starting from the second candle). -/
def trueRanges : List MarketData → List ℚ
  | a :: b :: rest => max (b.high - b.low) (max |b.high - a.close| |b.low - a.close|)
      :: trueRanges (b :: rest)
  | _ => []

/-- `calculateATR` from `aiEngine.ts`: SMA of the last `period` true ranges,
0 when fewer than `period + 1` candles exist. -/
def calculateATR (data : List MarketData) (period : ℕ := 14) : ℚ :=
  if data.length < period + 1 then 0
  else
    let trs := trueRanges data
    calculateSMA (trs.drop (trs.length - period)) period

/-- `Math.min(...)` over a list (used on a nonempty slice in the source). -/
def listMin : List ℚ → ℚ
  | [] => 0
  | a :: rest => rest.foldl min a

/-- `Math.max(...)` over a list (used on a nonempty slice in the source). -/
def listMax : List ℚ → ℚ
  | [] => 0
  | a :: rest => rest.foldl max a

/-- The summed squared bar-to-bar returns inside the volatility feature of
`extractFeatures` (the `reduce` skips its first index). -/
def sqReturns : List ℚ → ℚ
  | a :: b :: rest => ((b - a) / a) ^ 2 + sqReturns (b :: rest)
  | _ => 0

/-- `extractFeatures` from `aiEngine.ts`: the 20-entry normalized feature
vector, in source order. -/
def extractFeatures (sqrtQ : SqrtFun) (marketData : List MarketData) : List ℚ :=
  let closes := marketData.map (·.close)
  let volumes := marketData.map (·.volume)
  let sma20 := calculateSMA closes 20
  let sma50 := calculateSMA closes 50
  let ema12 := calculateEMA closes 12
  let ema26 := calculateEMA closes 26
  let rsi := calculateRSI closes
  let macd := calculateMACD closes
  let bb := calculateBollingerBands sqrtQ closes
  let currentPrice := closes.getD (closes.length - 1) 0
  let volumeAvg := calculateSMA volumes 20
  let currentVolume := volumes.getD (volumes.length - 1) 0
  [ (currentPrice - sma20) / sma20,
    (currentPrice - sma50) / sma50,
    (ema12 - ema26) / currentPrice,
    (rsi - 50) / 50,
    macd.macd / currentPrice,
    macd.histogram / currentPrice,
    (currentPrice - bb.middle) / (bb.upper - bb.lower),
    (currentPrice - bb.lower) / currentPrice,
    (bb.upper - currentPrice) / currentPrice,
    (currentVolume - volumeAvg) / volumeAvg,
    (closes.getD (closes.length - 1) 0 - closes.getD (closes.length - 2) 0) /
      closes.getD (closes.length - 2) 0,
    (closes.getD (closes.length - 1) 0 - closes.getD (closes.length - 5) 0) /
      closes.getD (closes.length - 5) 0,
    (closes.getD (closes.length - 1) 0 - closes.getD (closes.length - 10) 0) /
      closes.getD (closes.length - 10) 0,
    sqrtQ (sqReturns (closes.drop (closes.length - 10)) / 10),
    (sma20 - sma50) / sma50,
    listMin (closes.drop (closes.length - 20)) / currentPrice,
    listMax (closes.drop (closes.length - 20)) / currentPrice,
    (volumes.getD (volumes.length - 1) 0 - volumes.getD (volumes.length - 2) 0) /
      volumes.getD (volumes.length - 2) 0,
    macd.signal / currentPrice,
    (rsi - calculateRSI closes.dropLast) / 100 ]

/-- The decimal digit character of `n % 10`. -/
def natDigitChar (n : ℕ) : Char :=
  if n % 10 = 0 then '0' else if n % 10 = 1 then '1' else if n % 10 = 2 then '2'
  else if n % 10 = 3 then '3' else if n % 10 = 4 then '4' else if n % 10 = 5 then '5'
  else if n % 10 = 6 then '6' else if n % 10 = 7 then '7' else if n % 10 = 8 then '8'
  else '9'

/-- Base-10 rendering with explicit fuel (structural recursion, so that
concrete strings reduce); `fuel = n` always suffices since `n / 10 < n`. -/
def natToDigitsAux : ℕ → ℕ → List Char
  | 0, n => [natDigitChar n]
  | fuel + 1, n =>
      if n < 10 then [natDigitChar n]
      else natToDigitsAux fuel (n / 10) ++ [natDigitChar (n % 10)]

/-- Base-10 rendering of a natural number, most significant digit first. -/
def natToDigits (n : ℕ) : List Char := natToDigitsAux n n

/-- Round a rational to the nearest integer (halves up); used to model the
rounding performed by `Number.prototype.toFixed`. -/
def ratRound (q : ℚ) : ℤ := Int.fdiv (2 * q.num + q.den) (2 * q.den)

/-- Character list of `q.toFixed(1)`. -/
def toFixed1List (q : ℚ) : List Char :=
  let n : ℤ := ratRound (q * 10)
  (if n < 0 then ['-'] else []) ++
    natToDigits (n.natAbs / 10) ++ '.' :: natToDigits (n.natAbs % 10)

/-- Model of `q.toFixed(1)` (JavaScript fixed-point formatting). -/
def toFixed1 (q : ℚ) : String := String.mk (toFixed1List q)

/-- Character list of `q.toFixed(2)`. -/
def toFixed2List (q : ℚ) : List Char :=
  let n : ℤ := ratRound (q * 100)
  (if n < 0 then ['-'] else []) ++
    natToDigits (n.natAbs / 100) ++
      '.' :: natDigitChar (n.natAbs % 100 / 10) :: [natDigitChar (n.natAbs % 10)]

/-- Model of `q.toFixed(2)`. -/
def toFixed2 (q : ℚ) : String := String.mk (toFixed2List q)

/-- Rendering of the action union member. -/
def actionString : TradeAction → String
  | .BUY => "BUY"
  | .SELL => "SELL"
  | .HOLD => "HOLD"

/-- The `reasons` array built by `generateReasoning` in `aiEngine.ts`. -/
def reasonsList (action : TradeAction) (rsi : ℚ) (macd : MACDResult)
    (closes : List ℚ) : List String :=
  match action with
  | .BUY =>
      (if rsi < 30 then ["RSI oversold"] else []) ++
      (if 0 < macd.histogram then ["MACD bullish"] else []) ++
      (if closes.getD (closes.length - 5) 0 < closes.getD (closes.length - 1) 0 then
        ["Uptrend detected"] else [])
  | .SELL =>
      (if 70 < rsi then ["RSI overbought"] else []) ++
      (if macd.histogram < 0 then ["MACD bearish"] else []) ++
      (if closes.getD (closes.length - 1) 0 < closes.getD (closes.length - 5) 0 then
        ["Downtrend detected"] else [])
  | .HOLD => ["Market conditions unclear"]

/-- `generateReasoning` from `aiEngine.ts`.  The source only ever calls it
with `action` one of the three union members, so the parameter is typed
`TradeAction` here. -/
def generateReasoning (action : TradeAction) (confidence rsi : ℚ)
    (macd : MACDResult) (closes : List ℚ) : String :=
  actionString action ++ " signal (" ++ toFixed1 confidence ++ "% confidence): " ++
    String.intercalate ", " (reasonsList action rsi macd closes)

/-- `analyzeMarket` from `aiEngine.ts`.  The neural network's forward pass is
the parameter `predict`; the `model` field is assumed initialised, and the
`try/catch` is dropped because no modelled operation throws. -/
def analyzeMarket (predict : List ℚ → ℚ × ℚ × ℚ) (sqrtQ : SqrtFun)
    (marketData : List MarketData) : TradeSignal :=
  if marketData.length < 50 then
    ⟨.HOLD, 0, 0, 0, 0, "Insufficient data for analysis"⟩
  else
    let features := extractFeatures sqrtQ marketData
    let probs := predict features
    let buyProb := probs.1
    let sellProb := probs.2.1
    let holdProb := probs.2.2
    let maxProb := max buyProb (max sellProb holdProb)
    let action : TradeAction :=
      if maxProb = buyProb then .BUY else if maxProb = sellProb then .SELL else .HOLD
    let currentPrice := (marketData.getD (marketData.length - 1) dummyCandle).close
    let closes := marketData.map (·.close)
    let atr := calculateATR marketData
    let rsi := calculateRSI closes
    let macd := calculateMACD closes
    let stopLossDistance := atr * 2
    let takeProfitDistance := atr * 3
    let stopLoss :=
      if action = .BUY then currentPrice - stopLossDistance
      else currentPrice + stopLossDistance
    let takeProfit :=
      if action = .BUY then currentPrice + takeProfitDistance
      else currentPrice - takeProfitDistance
    let lotSize := min (0.1 * maxProb) 0.05
    let reasoning := generateReasoning action maxProb rsi macd closes
    ⟨action, maxProb * 100, stopLoss, takeProfit, lotSize, reasoning⟩

/-! ## The decision model's online update (`learnFromTrade`) -/

/-- The mutable fields of `AITradingEngine`: the (abstract) network
parameters together with the in-flight `isTraining` flag. -/
structure EngineState (P : Type) where
  params : P
  isTraining : Bool

/-- The one-hot label built inside `learnFromTrade` from the realized action
and the signed profit/loss. -/
def tradeLabel (action : TradeAction) (profitLoss : ℚ) : List ℚ :=
  if 0 < profitLoss then
    match action with
    | .BUY => [1, 0, 0]
    | .SELL => [0, 1, 0]
    | .HOLD => [0, 0, 1]
  else
    match action with
    | .BUY => [0, 1, 0]
    | .SELL => [1, 0, 0]
    | .HOLD => [0, 0, 1]

/-- Setting `this.isTraining = true` at the top of `learnFromTrade`. -/
def beginTraining {P : Type} (st : EngineState P) : EngineState P :=
  { st with isTraining := true }

/-- The guarded body of `learnFromTrade`: one `model.fit` optimisation step
(`epochs: 1`, abstracted as `step`) toward the one-hot label, followed by the
`finally` block clearing the flag. -/
def trainBody {P : Type} (step : P → List ℚ → List ℚ → P) (sqrtQ : SqrtFun)
    (st : EngineState P) (marketData : List MarketData) (action : TradeAction)
    (profitLoss : ℚ) : EngineState P :=
  { params := step st.params (extractFeatures sqrtQ marketData) (tradeLabel action profitLoss),
    isTraining := false }

/-- `learnFromTrade` from `aiEngine.ts`: dropped outright when an update is
already in flight, otherwise exactly one optimisation step. -/
def learnFromTrade {P : Type} (step : P → List ℚ → List ℚ → P) (sqrtQ : SqrtFun)
    (st : EngineState P) (marketData : List MarketData) (action : TradeAction)
    (profitLoss : ℚ) : EngineState P :=
  if st.isTraining then st
  else trainBody step sqrtQ (beginTraining st) marketData action profitLoss

/-- Spec-side definition: the one-hot distribution reinforcing an action
(from §4.3 of the specification). -/
def oneHot : TradeAction → List ℚ
  | .BUY => [1, 0, 0]
  | .SELL => [0, 1, 0]
  | .HOLD => [0, 0, 1]

/-- Spec-side definition: "flipping BUY↔SELL, leaving HOLD unchanged"
(from §4.3 of the specification). -/
def flipAction : TradeAction → TradeAction
  | .BUY => .SELL
  | .SELL => .BUY
  | .HOLD => .HOLD

/-! ## The simulated MT5 bridge (`mt5Bridge.ts`) -/

/-- `MT5Config` from `mt5Bridge.ts`. -/
structure MT5Config where
  accountNumber : String
  password : String
  server : String
  symbol : String
deriving DecidableEq

/-- `MT5Position` from `mt5Bridge.ts`.  Only `BUY`/`SELL` occur in `type`. -/
structure MT5Position where
  ticket : ℕ
  symbol : String
  type : TradeAction
  volume : ℚ
  openPrice : ℚ
  currentPrice : ℚ
  profit : ℚ
  stopLoss : ℚ
  takeProfit : ℚ
  openTime : ℕ
deriving DecidableEq

/-- Placeholder for out-of-range position indexing (never hit on the paths
proved below). -/
def dummyPosition : MT5Position := ⟨0, "", .BUY, 0, 0, 0, 0, 0, 0, 0⟩

/-- `MT5AccountInfo` from `mt5Bridge.ts`. -/
structure MT5AccountInfo where
  balance : ℚ
  equity : ℚ
  margin : ℚ
  freeMargin : ℚ
  profit : ℚ
  leverage : ℚ
deriving DecidableEq

/-- The private mutable fields of the `MT5Bridge` class, for a single symbol
(the bridge only ever seeds `config.symbol`, so the map
`marketDataHistory` is modelled as the one entry `history`, `none` standing
for an absent key).  `rngIdx` is the cursor into the `Math.random()` draw
stream and `now` the `Date.now()` clock (strictly increasing).
`closedLog` is a pure observer recording the final field values of every
position object removed from the open list: in JavaScript, snapshots handed
out by `getPositions` alias those objects, whose fields freeze at removal
time, and `closedLog` lets the embedding read those frozen fields. -/
structure BridgeState where
  config : Option MT5Config
  connected : Bool
  positions : List MT5Position
  accountInfo : MT5AccountInfo
  history : Option (List MarketData)
  simulatedPrice : ℚ
  rngIdx : ℕ
  now : ℕ
  closedLog : List MT5Position
deriving DecidableEq

/-- The field initialisers of `MT5Bridge` (balance 10000, leverage 100,
EUR/USD starting price 1.0950). -/
def initialBridgeState (now0 : ℕ) : BridgeState :=
  { config := none, connected := false, positions := [],
    accountInfo := ⟨10000, 10000, 0, 10000, 0, 100⟩,
    history := none, simulatedPrice := 1.0950,
    rngIdx := 0, now := now0, closedLog := [] }

/-- One `Math.random()` draw. -/
def drawRand (rng : ℕ → ℚ) (st : BridgeState) : ℚ × BridgeState :=
  (rng st.rngIdx, { st with rngIdx := st.rngIdx + 1 })

/-- One `Date.now()` read (modelled strictly increasing). -/
def tickNow (st : BridgeState) : ℕ × BridgeState :=
  (st.now, { st with now := st.now + 1 })

/-- One iteration of the seeding loop in `initializeMarketData`
(`src/lib/mt5Bridge.ts` lines 80–97): returns the generated candle and the
updated walk price; `idx` is the draw cursor (5 draws per iteration). -/
def initIter (rng : ℕ → ℚ) (now0 i : ℕ) (price0 : ℚ) (idx : ℕ) : MarketData × ℚ :=
  let change := (rng idx - 0.5) * 0.0020
  let price := price0 * (1 + change)
  let openP := price
  let closeP := price * (1 + (rng (idx + 1) - 0.5) * 0.0010)
  let highP := max openP closeP * (1 + rng (idx + 2) * 0.0005)
  let lowP := min openP closeP * (1 - rng (idx + 3) * 0.0005)
  let vol := rng (idx + 4) * 1000 + 500
  (⟨now0 - i * 60000, openP, highP, lowP, closeP, vol⟩, price)

/-- The seeding loop `for (let i = 100; i >= 0; i--)` of
`initializeMarketData`, counting `i` down to 0; returns the candle list,
the final walk price and the final draw cursor. -/
def initLoop (rng : ℕ → ℚ) (now0 : ℕ) : ℕ → ℚ → ℕ → List MarketData × ℚ × ℕ
  | 0, price0, idx =>
      let it := initIter rng now0 0 price0 idx
      ([it.1], it.2, idx + 5)
  | i2 + 1, price0, idx =>
      let it := initIter rng now0 (i2 + 1) price0 idx
      let rest := initLoop rng now0 i2 it.2 (idx + 5)
      (it.1 :: rest.1, rest.2.1, rest.2.2)

/-- `initializeMarketData` from `mt5Bridge.ts`: seeds 101 synthetic
one-minute candles and moves the walk price to the last close. -/
def seedMarketData (rng : ℕ → ℚ) (st : BridgeState) : BridgeState :=
  let (now0, st1) := tickNow st
  let seeded := initLoop rng now0 100 st1.simulatedPrice st1.rngIdx
  { st1 with
    history := some seeded.1,
    rngIdx := seeded.2.2,
    simulatedPrice := (seeded.1.getLastD dummyCandle).close }

/-- `connect` from `mt5Bridge.ts` (the simulated 1s delay is dropped; the
credential check models JavaScript string falsiness). -/
def connect (rng : ℕ → ℚ) (cfg : MT5Config) (st : BridgeState) :
    Except String Bool × BridgeState :=
  let st1 := { st with config := some cfg }
  if cfg.accountNumber = "" ∨ cfg.password = "" ∨ cfg.server = "" then
    (.error "Invalid MT5 credentials", st1)
  else
    (.ok true, seedMarketData rng { st1 with connected := true })

/-- `disconnect` from `mt5Bridge.ts`. -/
def disconnect (st : BridgeState) : BridgeState :=
  { st with connected := false, config := none }

/-- `updateMarketData` from `mt5Bridge.ts`: advances the walk by exactly one
candle and evicts the oldest candle past 200 bars.  A missing history entry
(`none`) makes it a no-op, as in the source. -/
def updateMarketData (rng : ℕ → ℚ) (st : BridgeState) : BridgeState :=
  match st.history with
  | none => st
  | some history =>
    let (r1, st1) := drawRand rng st
    let change := (r1 - 0.5) * 0.0015
    let newPrice := st1.simulatedPrice * (1 + change)
    let openP := (history.getLastD dummyCandle).close
    let closeP := newPrice
    let (r2, st2) := drawRand rng st1
    let highP := max openP closeP * (1 + r2 * 0.0005)
    let (r3, st3) := drawRand rng st2
    let lowP := min openP closeP * (1 - r3 * 0.0005)
    let (r4, st4) := drawRand rng st3
    let (t, st5) := tickNow st4
    let candle : MarketData := ⟨t, openP, highP, lowP, closeP, r4 * 1000 + 500⟩
    let history2 := history ++ [candle]
    let history3 := if 200 < history2.length then history2.drop 1 else history2
    { st5 with simulatedPrice := newPrice, history := some history3 }

/-- `getMarketData` from `mt5Bridge.ts`: advance the walk once, then return
the last `bars` candles (all of them for `bars = 0`, as `slice(-0)` does). -/
def getMarketData (rng : ℕ → ℚ) (st : BridgeState) (bars : ℕ) :
    Except String (List MarketData) × BridgeState :=
  if st.connected then
    let st1 := updateMarketData rng st
    let history := st1.history.getD []
    (.ok (if bars = 0 then history else history.drop (history.length - bars)), st1)
  else (.error "Not connected to MT5", st)

/-- `updateAccountInfo` from `mt5Bridge.ts`: recomputes profit, equity,
margin and free margin from the open-position list. -/
def updateAccountInfo (st : BridgeState) : BridgeState :=
  let totalProfit := st.positions.foldl (fun sum p => sum + p.profit) 0
  let totalMargin := st.positions.foldl
    (fun sum p => sum + p.volume * p.openPrice * 100000 / st.accountInfo.leverage) 0
  { st with accountInfo := { st.accountInfo with
      profit := totalProfit,
      equity := st.accountInfo.balance + totalProfit,
      margin := totalMargin,
      freeMargin := st.accountInfo.balance + totalProfit - totalMargin } }

/-- `openPosition` from `mt5Bridge.ts`: fill at the latest close (after the
embedded `getMarketData` call advances the walk), ticket and open time from
`Date.now()`. -/
def openPosition (rng : ℕ → ℚ) (st : BridgeState) (symbol : String)
    (type : TradeAction) (volume stopLoss takeProfit : ℚ) :
    Except String MT5Position × BridgeState :=
  if st.connected then
    let res := getMarketData rng st 1
    match res with
    | (.error e, st1) => (.error e, st1)
    | (.ok data, st1) =>
      let currentPrice := (data.getD 0 dummyCandle).close
      let (ticket, st2) := tickNow st1
      let (openTime, st3) := tickNow st2
      let position : MT5Position :=
        ⟨ticket, symbol, type, volume, currentPrice, currentPrice, 0,
          stopLoss, takeProfit, openTime⟩
      let st4 := { st3 with positions := st3.positions ++ [position] }
      (.ok position, updateAccountInfo st4)
  else (.error "Not connected to MT5", st)

/-- `closePosition` from `mt5Bridge.ts`: fails with "Position not found" for
an unknown ticket (before any mutation), otherwise credits the position's
profit to the balance, removes it, and recomputes the account. -/
def closePosition (st : BridgeState) (ticket : ℕ) : Except String ℚ × BridgeState :=
  if st.connected then
    match st.positions.findIdx? (fun p => p.ticket == ticket) with
    | none => (.error "Position not found", st)
    | some i =>
      let position := st.positions.getD i dummyPosition
      let profit := position.profit
      let st1 := { st with accountInfo := { st.accountInfo with
          balance := st.accountInfo.balance + profit,
          profit := st.accountInfo.profit - profit } }
      let st2 := { st1 with
        positions := st1.positions.eraseIdx i,
        closedLog := st1.closedLog ++ [position] }
      (.ok profit, updateAccountInfo st2)
  else (.error "Not connected to MT5", st)

/-- The mark-to-market step inside the `getPositions` loop: set
`currentPrice` and recompute `profit` as the direction-signed price
difference times volume times 100000. -/
def markPosition (p : MT5Position) (c : ℚ) : MT5Position :=
  { p with
    currentPrice := c,
    profit := (if p.type = .BUY then c - p.openPrice else p.openPrice - c) *
      p.volume * 100000 }

/-- The stop-loss/take-profit check inside the `getPositions` loop
(BUY: close if `price ≤ stop` or `price ≥ take`; otherwise the `else`
branch: close if `price ≥ stop` or `price ≤ take`). -/
def crossed (p : MT5Position) : Bool :=
  if p.type = .BUY then
    decide (p.currentPrice ≤ p.stopLoss ∨ p.takeProfit ≤ p.currentPrice)
  else
    decide (p.stopLoss ≤ p.currentPrice ∨ p.currentPrice ≤ p.takeProfit)

/-- The `for (const position of this.positions)` loop of `getPositions`,
with JavaScript array-iterator semantics: the cursor `k` advances by one per
iteration regardless of the `splice` performed by an embedded
`closePosition`, so the element following a removed one is skipped.  The
embedded `closePosition` call cannot fail here (the ticket was just read
from the list and the bridge is connected), so its `Except` is dropped.
`fuel` is structural-recursion fuel; `positions.length + 1` suffices since
`k` grows and the list never does. -/
def getPositionsLoop (rng : ℕ → ℚ) : ℕ → BridgeState → ℕ →
    Except String Unit × BridgeState
  | 0, st, _ => (.ok (), st)
  | fuel + 1, st, k =>
    if h : k < st.positions.length then
      let position := st.positions.get ⟨k, h⟩
      match getMarketData rng st 1 with
      | (.error e, st1) => (.error e, st1)
      | (.ok data, st1) =>
        let currentPrice := (data.getD 0 dummyCandle).close
        let position2 := markPosition position currentPrice
        let st2 := { st1 with positions := st1.positions.set k position2 }
        let st3 := if crossed position2 then (closePosition st2 position2.ticket).2 else st2
        getPositionsLoop rng fuel st3 (k + 1)
    else (.ok (), st)

/-- `getPositions` from `mt5Bridge.ts`: marks, auto-closes, then returns a
copy of the (possibly smaller) open list. -/
def getPositions (rng : ℕ → ℚ) (st : BridgeState) :
    Except String (List MT5Position) × BridgeState :=
  if st.connected then
    match getPositionsLoop rng (st.positions.length + 1) st 0 with
    | (.error e, st1) => (.error e, st1)
    | (.ok _, st1) => (.ok st1.positions, st1)
  else (.error "Not connected to MT5", st)

/-- `getAccountInfo` from `mt5Bridge.ts`. -/
def getAccountInfo (st : BridgeState) : Except String MT5AccountInfo × BridgeState :=
  if st.connected then
    let st1 := updateAccountInfo st
    (.ok st1.accountInfo, st1)
  else (.error "Not connected to MT5", st)

/-- The account-arithmetic invariant of §3 of the specification:
`equity = balance + Σ profit`, `freeMargin = equity − margin`,
`margin = Σ volume·openPrice·100000/leverage`. -/
def accountInvariant (st : BridgeState) : Prop :=
  st.accountInfo.equity =
      st.accountInfo.balance + st.positions.foldl (fun sum p => sum + p.profit) 0 ∧
  st.accountInfo.freeMargin = st.accountInfo.equity - st.accountInfo.margin ∧
  st.accountInfo.margin = st.positions.foldl
      (fun sum p => sum + p.volume * p.openPrice * 100000 / st.accountInfo.leverage) 0

instance (st : BridgeState) : Decidable (accountInvariant st) := by
  unfold accountInvariant; infer_instance

/-- Iterating `updateMarketData` (used to describe which freshly generated
candle each position inside one `getPositions` call is marked to). -/
def advanceMarket (rng : ℕ → ℚ) : ℕ → BridgeState → BridgeState
  | 0, st => st
  | n + 1, st => advanceMarket rng n (updateMarketData rng st)

/-- The close of the newest candle in the bridge history. -/
def latestClose (st : BridgeState) : ℚ :=
  ((st.history.getD []).getLastD dummyCandle).close

/-! ## The bot orchestrator (`tradingBot.ts`), `managePositions` part -/

/-- The `'BUY' | 'SELL' | 'CLOSE'` union of `TradeHistory.action`. -/
inductive HistAction where
  | BUY
  | SELL
  | CLOSE
deriving DecidableEq

/-- `TradeHistory` from `tradingBot.ts`. -/
structure TradeHistory where
  id : ℕ
  timestamp : ℕ
  symbol : String
  action : HistAction
  price : ℚ
  volume : ℚ
  profit : Option ℚ
  reasoning : String
deriving DecidableEq

/-- The mutable fields of `TradingBot` used by `managePositions`, plus two
pure observers: `emitted` records each `onTradeExecuted` callback invocation
and `learnCalls` each `aiEngine.learnFromTrade` invocation (action and
profit arguments), in order. -/
structure BotState (P : Type) where
  bridge : BridgeState
  engine : EngineState P
  tradeHistory : List TradeHistory
  emitted : List TradeHistory
  learnCalls : List (TradeAction × ℚ)

/-- The state of a position *object* previously handed out in a snapshot:
JavaScript snapshots alias the bridge's position objects, so a field read
through a stale snapshot sees the object's current state — still live in
`positions`, or frozen in `closedLog` at the moment it was removed. -/
def objectState (st : BridgeState) (p : MT5Position) : MT5Position :=
  match st.positions.find? (fun q => q.ticket == p.ticket) with
  | some q => q
  | none =>
    match st.closedLog.reverse.find? (fun q => q.ticket == p.ticket) with
    | some q => q
    | none => p

/-- The template string of the CLOSE record reasoning in `managePositions`. -/
def closeReasonStr (profit : ℚ) : String :=
  "Position closed: " ++ (if 0 < profit then "Profit" else "Loss") ++
    " of $" ++ toFixed2 profit

/-- Instrumentation record for one iteration of the `managePositions` loop:
the baseline ticket examined, whether it was still present in that
iteration's fresh `getPositions` query, and (when absent) the CLOSE record
appended and the learning call made. -/
structure CheckEntry where
  ticket : ℕ
  present : Bool
  record : Option TradeHistory
  learn : Option (TradeAction × ℚ)
deriving DecidableEq

/-- The `for (const position of positions)` loop of `managePositions` in
`tradingBot.ts`: each iteration re-queries the open set, and a baseline
position absent from *that* query gets one CLOSE record (fields read through
the aliased object, hence `objectState`), one emission, and one
`learnFromTrade` invocation.  A `getPositions` failure aborts the loop (the
surrounding `try` swallows it).  The returned `CheckEntry` list is pure
instrumentation. -/
def manageLoop {P : Type} (step : P → List ℚ → List ℚ → P) (sqrtQ : SqrtFun)
    (rng : ℕ → ℚ) : BotState P → List MarketData → List MT5Position →
    BotState P × List CheckEntry
  | st, _, [] => (st, [])
  | st, md, position :: rest =>
    match getPositions rng st.bridge with
    | (.error _, br) => ({ st with bridge := br }, [])
    | (.ok current, br) =>
      let st1 : BotState P := { st with bridge := br }
      if current.any (fun p => p.ticket == position.ticket) then
        let res := manageLoop step sqrtQ rng st1 md rest
        (res.1, ⟨position.ticket, true, none, none⟩ :: res.2)
      else
        let obj := objectState st1.bridge position
        let (t, br2) := tickNow st1.bridge
        let closeTrade : TradeHistory :=
          ⟨position.ticket, t, obj.symbol, .CLOSE, obj.currentPrice, obj.volume,
            some obj.profit, closeReasonStr obj.profit⟩
        let st2 : BotState P := { st1 with
          bridge := br2,
          tradeHistory := st1.tradeHistory ++ [closeTrade],
          emitted := st1.emitted ++ [closeTrade],
          learnCalls := st1.learnCalls ++ [(position.type, obj.profit)] }
        let st3 : BotState P := { st2 with
          engine := learnFromTrade step sqrtQ st2.engine md position.type obj.profit }
        let res := manageLoop step sqrtQ rng st3 md rest
        (res.1, ⟨position.ticket, false, some closeTrade, some (position.type, obj.profit)⟩ :: res.2)

/-- `managePositions` from `tradingBot.ts`: query the baseline open set,
then run the per-position loop. -/
def managePositions {P : Type} (step : P → List ℚ → List ℚ → P) (sqrtQ : SqrtFun)
    (rng : ℕ → ℚ) (st : BotState P) (marketData : List MarketData) : BotState P :=
  match getPositions rng st.bridge with
  | (.error _, br) => { st with bridge := br }
  | (.ok positions, br) =>
    (manageLoop step sqrtQ rng { st with bridge := br } marketData positions).1

/-! ## Claim-level predicates stated directly from the claim texts -/

/-- Claim C3 as stated: after a single `getPositions` call on a connected
state, every returned position is marked to the latest close (at return
time), carries the recomputed direction-signed profit, and has not crossed
its own stop or take. -/
def c3ClaimProperty (rng : ℕ → ℚ) (st : BridgeState) : Prop :=
  ∀ p ∈ ((getPositions rng st).1.toOption.getD []),
    p.currentPrice = latestClose (getPositions rng st).2 ∧
    p.profit = (if p.type = .BUY then p.currentPrice - p.openPrice
      else p.openPrice - p.currentPrice) * p.volume * 100000 ∧
    crossed p = false

instance (rng : ℕ → ℚ) (st : BridgeState) : Decidable (c3ClaimProperty rng st) := by
  unfold c3ClaimProperty; infer_instance

/-! ## Concrete inputs used by witnesses and counterexamples -/

/-- A flat 50-candle window (all prices 1): a legitimate market-data window
with zero ATR. -/
def flatWindow : List MarketData := List.replicate 50 ⟨0, 1, 1, 1, 1, 1000⟩

/-- A 50-candle window with bar range 1 (ATR = 1). -/
def rangeWindow : List MarketData := List.replicate 50 ⟨0, 1, 2, 1, 1, 1000⟩

/-- A forward pass preferring HOLD (softmax-realizable). -/
def holdPredict : List ℚ → ℚ × ℚ × ℚ := fun _ => (1/10, 1/10, 8/10)

/-- A forward pass preferring BUY (softmax-realizable). -/
def buyPredict : List ℚ → ℚ × ℚ × ℚ := fun _ => (9/10, 1/20, 1/20)

/-- The character alphabet of `toFixed` output: `-`, `.` and the digits
(code points 45–57). -/
def confChar (ch : Char) : Prop := 45 ≤ ch.toNat ∧ ch.toNat ≤ 57

instance (ch : Char) : Decidable (confChar ch) := by unfold confChar; infer_instance

/-- A draw stream with a single downward price step at draw 509 (all draws
lie in `[0, 1)`, hence are realizable `Math.random()` outputs). -/
def rngDip509 : ℕ → ℚ := fun n => if n = 509 then 0 else 1/2

/-- A valid credential record. -/
def demoConfig : MT5Config := ⟨"1", "1", "1", "EURUSD"⟩

/-- The bridge straight after a successful `connect`. -/
def c1Connected : BridgeState := (connect rngDip509 demoConfig (initialBridgeState 7000000)).2

/-- The bridge after additionally opening one BUY position (stop 0, take
1000, so no auto-close can fire at nearby prices). -/
def c1Opened : BridgeState :=
  (openPosition rngDip509 c1Connected "EURUSD" .BUY 0.01 0 1000).2

/-- Two bridge states agree on the market-walk fields (the only fields
`updateMarketData` reads or writes). -/
def sameMarket (st st' : BridgeState) : Prop :=
  st.history = st'.history ∧ st.simulatedPrice = st'.simulatedPrice ∧
  st.rngIdx = st'.rngIdx ∧ st.now = st'.now

/-- An always-crossed BUY position (stop 2 above any nearby price). -/
def c3Crossed (t : ℕ) : MT5Position :=
  ⟨t, "EURUSD", .BUY, 1/100, 219/200, 219/200, 0, 2, 1000, t⟩

/-- A connected bridge state holding two always-crossed BUY positions. -/
def c3State : BridgeState :=
  ⟨some demoConfig, true, [c3Crossed 1, c3Crossed 2],
    ⟨10000, 10000, 0, 10000, 0, 100⟩,
    some [⟨0, 219/200, 219/200, 219/200, 219/200, 1000⟩], 219/200, 0, 7000000, []⟩

/-- A connected bridge state with one uncrossed BUY position (stop 0, take
1000). -/
def c3Calm : BridgeState :=
  ⟨some demoConfig, true,
    [⟨1, "EURUSD", .BUY, 1/100, 219/200, 219/200, 0, 0, 1000, 1⟩],
    ⟨10000, 10000, 0, 10000, 0, 100⟩,
    some [⟨0, 219/200, 219/200, 219/200, 219/200, 1000⟩], 219/200, 0, 7000000, []⟩

/-- A draw stream with a single downward price step at draw 529. -/
def rngDip529 : ℕ → ℚ := fun n => if n = 529 then 0 else 1/2

/-- Connect, then open a BUY position whose stop sits just below the current
price (it crosses only after the price dips at draw 529). -/
def c4Bridge2 : BridgeState :=
  (openPosition rngDip529 (connect rngDip529 demoConfig (initialBridgeState 7000000)).2
    "EURUSD" .BUY 0.01 (219/200 * (3999/4000)) 1000).2

/-- ... then open a second BUY position that never crosses. -/
def c4Bridge3 : BridgeState :=
  (openPosition rngDip529 c4Bridge2 "EURUSD" .BUY 0.01 0 1000).2

/-- The bot about to run `managePositions` on that bridge. -/
def c4Bot : BotState Unit := ⟨c4Bridge3, ⟨(), false⟩, [], [], []⟩

/-- The baseline open set the tick's `managePositions` queries first. -/
def c4Baseline : List MT5Position :=
  (getPositions rngDip529 c4Bridge3).1.toOption.getD []

/-- The bot state after `managePositions`. -/
def c4Post : BotState Unit :=
  managePositions (fun p _ _ => p) (fun _ => 0) rngDip529 c4Bot []

/-! ## Shared helper lemmas -/

lemma gains_foldl_nonneg (l : List ℚ) (init : ℚ) (h : 0 ≤ init) :
    0 ≤ l.foldl (fun g c => if 0 < c then g + c else g) init := by
  induction l generalizing init with
  | nil => exact h
  | cons a t ih =>
    simp only [List.foldl_cons]
    split
    · exact ih _ (by positivity)
    · exact ih _ h

lemma losses_foldl_nonneg (l : List ℚ) (init : ℚ) (h : 0 ≤ init) :
    0 ≤ l.foldl (fun g c => if 0 < c then g else g - c) init := by
  induction l generalizing init with
  | nil => exact h
  | cons a t ih =>
    simp only [List.foldl_cons]
    split
    · exact ih _ h
    · have : (0:ℚ) ≤ -a := by linarith [not_lt.mp (by assumption : ¬ 0 < a)]
      exact ih _ (by linarith)

lemma rsiGains_nonneg (data : List ℚ) (period : ℕ) : 0 ≤ rsiGains data period :=
  gains_foldl_nonneg _ _ le_rfl

lemma rsiLosses_nonneg (data : List ℚ) (period : ℕ) : 0 ≤ rsiLosses data period :=
  losses_foldl_nonneg _ _ le_rfl

/-! ## Claim theorems -/

/-- C9: for every sequence of closing prices (and every positive period, the
source default being 14), the RSI computation returns a value in `[0, 100]`;
it returns exactly 100 when the average loss over the last `period` deltas
is 0, and exactly 50 when fewer than `period + 1` prices are available. -/
theorem calculateRSI_range (data : List ℚ) (period : ℕ) (hp : 0 < period) :
    (0 ≤ calculateRSI data period ∧ calculateRSI data period ≤ 100) ∧
    (¬ data.length < period + 1 → rsiLosses data period / period = 0 →
      calculateRSI data period = 100) ∧
    (data.length < period + 1 → calculateRSI data period = 50) := by
  have hG := rsiGains_nonneg data period
  have hL := rsiLosses_nonneg data period
  have hper : (0:ℚ) < period := by exact_mod_cast hp
  by_cases hlen : data.length < period + 1
  · have h50 : calculateRSI data period = 50 := by unfold calculateRSI; simp [hlen]
    exact ⟨by rw [h50]; norm_num, fun h _ => absurd hlen h, fun _ => h50⟩
  · by_cases hz : rsiLosses data period / period = 0
    · have h100 : calculateRSI data period = 100 := by
        unfold calculateRSI; simp [hlen, hz]
      exact ⟨by rw [h100]; norm_num, fun _ _ => h100, fun h => absurd h hlen⟩
    · have hval : calculateRSI data period =
          100 - 100 / (1 + rsiGains data period / period / (rsiLosses data period / period)) := by
        unfold calculateRSI; simp [hlen, hz]
      have hLpos : 0 < rsiLosses data period / period := by
        rcases lt_or_eq_of_le (div_nonneg hL hper.le) with h | h
        · exact h
        · exact absurd h.symm hz
      have hrs : 0 ≤ rsiGains data period / period / (rsiLosses data period / period) :=
        div_nonneg (div_nonneg hG hper.le) hLpos.le
      have h1 : (1:ℚ) ≤ 1 + rsiGains data period / period / (rsiLosses data period / period) := by
        linarith
      have hle : 100 / (1 + rsiGains data period / period / (rsiLosses data period / period)) ≤ 100 := by
        calc 100 / (1 + rsiGains data period / period / (rsiLosses data period / period))
            ≤ 100 / 1 := div_le_div_of_nonneg_left (by norm_num) (by norm_num) h1
          _ = 100 := by norm_num
      have hpos : 0 < 100 / (1 + rsiGains data period / period / (rsiLosses data period / period)) :=
        div_pos (by norm_num) (by linarith)
      exact ⟨⟨by rw [hval]; linarith, by rw [hval]; linarith⟩,
        fun _ h => absurd h hz, fun h => absurd h hlen⟩

/-- Witness for C9 at `data = [1, 2]`, `period = 1`. -/
theorem calculateRSI_range_witness :
    (0 < 1 ∧
      ((0 ≤ calculateRSI [1, 2] 1 ∧ calculateRSI [1, 2] 1 ≤ 100) ∧
      (¬ ([1, 2] : List ℚ).length < 1 + 1 → rsiLosses [1, 2] 1 / 1 = 0 →
        calculateRSI [1, 2] 1 = 100) ∧
      (([1, 2] : List ℚ).length < 1 + 1 → calculateRSI [1, 2] 1 = 50))) :=
  ⟨by decide, calculateRSI_range [1, 2] 1 (by decide)⟩

/-- C5: closing a ticket absent from the open set fails with
"Position not found" and returns the state unchanged (balance, equity and
the open-position list in particular). -/
theorem closePosition_not_found (st : BridgeState) (ticket : ℕ)
    (hconn : st.connected = true)
    (habs : ∀ p ∈ st.positions, p.ticket ≠ ticket) :
    closePosition st ticket = (.error "Position not found", st) := by
  unfold closePosition
  rw [hconn]
  have hnone : st.positions.findIdx? (fun p => p.ticket == ticket) = none := by
    rw [List.findIdx?_eq_none_iff]
    intro p hp
    simpa using habs p hp
  simp [hnone]

/-- Witness for C5: a connected single-position state and a foreign ticket. -/
theorem closePosition_not_found_witness :
    (let st : BridgeState :=
      ⟨some ⟨"1", "1", "1", "EURUSD"⟩, true,
        [⟨5, "EURUSD", .BUY, 1/100, 219/200, 219/200, 0, 0, 1000, 5⟩],
        ⟨10000, 10000, 0, 10000, 0, 100⟩, some [], 219/200, 0, 7000000, []⟩
    closePosition st 77 = (.error "Position not found", st)) :=
  closePosition_not_found _ 77 (by decide) (by decide)

/-- C6: with no update in flight, `learnFromTrade` applies exactly one
optimisation step towards the one-hot label that reinforces the realized
action on `profitLoss > 0` and otherwise the BUY↔SELL-flipped action
(HOLD is not flipped). -/
theorem learnFromTrade_single_step {P : Type} (step : P → List ℚ → List ℚ → P)
    (sqrtQ : SqrtFun) (st : EngineState P) (md : List MarketData)
    (action : TradeAction) (pl : ℚ) (hfree : st.isTraining = false) :
    learnFromTrade step sqrtQ st md action pl =
      ⟨step st.params (extractFeatures sqrtQ md) (tradeLabel action pl), false⟩ ∧
    (0 < pl → tradeLabel action pl = oneHot action) ∧
    (¬ 0 < pl → tradeLabel action pl = oneHot (flipAction action)) := by
  refine ⟨?_, ?_, ?_⟩
  · simp [learnFromTrade, hfree, trainBody, beginTraining]
  · intro h; cases action <;> simp [tradeLabel, oneHot, h]
  · intro h; cases action <;> simp [tradeLabel, oneHot, flipAction, h]

/-- Witness for C6 at a concrete one-parameter engine and a losing BUY. -/
theorem learnFromTrade_single_step_witness :
    learnFromTrade (fun (p : ℕ) _ _ => p + 1) (fun _ => 0) ⟨4, false⟩ [] .BUY (-2) =
      ⟨(fun (p : ℕ) _ _ => p + 1) 4 (extractFeatures (fun _ => 0) []) (tradeLabel .BUY (-2)),
        false⟩ ∧
    (0 < (-2 : ℚ) → tradeLabel .BUY (-2) = oneHot .BUY) ∧
    (¬ 0 < (-2 : ℚ) → tradeLabel .BUY (-2) = oneHot (flipAction .BUY)) :=
  learnFromTrade_single_step (fun (p : ℕ) _ _ => p + 1) (fun _ => 0) ⟨4, false⟩ [] .BUY (-2) rfl

/-- C7: an online update requested while one is in flight (flag set at
entry) returns the state unchanged — nothing queued, no error — and the
first update then completes to exactly the single-update baseline. -/
theorem learnFromTrade_busy_dropped {P : Type} (step : P → List ℚ → List ℚ → P)
    (sqrtQ : SqrtFun) (st : EngineState P) (md md2 : List MarketData)
    (a a2 : TradeAction) (pl pl2 : ℚ) (hfree : st.isTraining = false) :
    learnFromTrade step sqrtQ (beginTraining st) md2 a2 pl2 = beginTraining st ∧
    trainBody step sqrtQ (learnFromTrade step sqrtQ (beginTraining st) md2 a2 pl2) md a pl =
      learnFromTrade step sqrtQ st md a pl := by
  constructor
  · simp [learnFromTrade, beginTraining]
  · simp [learnFromTrade, beginTraining, trainBody, hfree]

/-- Witness for C7: a concrete engine, with the back-to-back scenario. -/
theorem learnFromTrade_busy_dropped_witness :
    learnFromTrade (fun (p : ℕ) _ _ => p + 1) (fun _ => 0)
        (beginTraining ⟨4, false⟩) [] .SELL 3 = beginTraining ⟨4, false⟩ ∧
    trainBody (fun (p : ℕ) _ _ => p + 1) (fun _ => 0)
        (learnFromTrade (fun (p : ℕ) _ _ => p + 1) (fun _ => 0)
          (beginTraining ⟨4, false⟩) [] .SELL 3) [] .BUY 1 =
      learnFromTrade (fun (p : ℕ) _ _ => p + 1) (fun _ => 0) ⟨4, false⟩ [] .BUY 1 :=
  learnFromTrade_busy_dropped (fun (p : ℕ) _ _ => p + 1) (fun _ => 0) ⟨4, false⟩
    [] [] .BUY .SELL 1 3 rfl

/-- Counterexample to C2 as stated: on a 50-candle window where the model
prefers HOLD, the returned HOLD signal has `stopLoss = takeProfit = 1` and
`lotSize = 0.05`, not 0. -/
theorem c2_hold_nonzero_fields :
    (analyzeMarket holdPredict (fun _ => 0) flatWindow).action = .HOLD ∧
    ¬ ((analyzeMarket holdPredict (fun _ => 0) flatWindow).stopLoss = 0 ∧
       (analyzeMarket holdPredict (fun _ => 0) flatWindow).takeProfit = 0 ∧
       (analyzeMarket holdPredict (fun _ => 0) flatWindow).lotSize = 0) :=
  ⟨by decide, by decide⟩

/-- Shape of every `analyzeMarket` signal on a window of at least 50
candles: stop and take sit `2·ATR` and `3·ATR` from the last close (BUY
below/above, otherwise above/below), and the lot size is the capped
confidence scaling. -/
lemma analyzeMarket_shape (predict : List ℚ → ℚ × ℚ × ℚ) (sqrtQ : SqrtFun)
    (md : List MarketData) (h : ¬ md.length < 50) :
    (analyzeMarket predict sqrtQ md).stopLoss =
      (if (analyzeMarket predict sqrtQ md).action = .BUY
        then (md.getD (md.length - 1) dummyCandle).close - calculateATR md 14 * 2
        else (md.getD (md.length - 1) dummyCandle).close + calculateATR md 14 * 2) ∧
    (analyzeMarket predict sqrtQ md).takeProfit =
      (if (analyzeMarket predict sqrtQ md).action = .BUY
        then (md.getD (md.length - 1) dummyCandle).close + calculateATR md 14 * 3
        else (md.getD (md.length - 1) dummyCandle).close - calculateATR md 14 * 3) ∧
    (analyzeMarket predict sqrtQ md).lotSize =
      min (0.1 * ((analyzeMarket predict sqrtQ md).confidence / 100)) 0.05 := by
  unfold analyzeMarket
  rw [if_neg h]
  dsimp only
  refine ⟨rfl, rfl, ?_⟩
  congr 2
  rw [mul_div_assoc]
  norm_num

/-- C2 amended: the zero stop/take/lot HOLD signal is produced exactly by
the insufficient-data path (fewer than 50 candles); a model-produced HOLD on
a window of at least 50 candles instead carries the SELL-side stop/take
(price + 2·ATR, price − 3·ATR) and the confidence-scaled lot size. -/
theorem analyzeMarket_hold_shape (predict : List ℚ → ℚ × ℚ × ℚ) (sqrtQ : SqrtFun)
    (md : List MarketData) :
    (md.length < 50 → analyzeMarket predict sqrtQ md =
      ⟨.HOLD, 0, 0, 0, 0, "Insufficient data for analysis"⟩) ∧
    (¬ md.length < 50 → (analyzeMarket predict sqrtQ md).action = .HOLD →
      (analyzeMarket predict sqrtQ md).stopLoss =
        (md.getD (md.length - 1) dummyCandle).close + calculateATR md 14 * 2 ∧
      (analyzeMarket predict sqrtQ md).takeProfit =
        (md.getD (md.length - 1) dummyCandle).close - calculateATR md 14 * 3 ∧
      (analyzeMarket predict sqrtQ md).lotSize =
        min (0.1 * ((analyzeMarket predict sqrtQ md).confidence / 100)) 0.05) := by
  constructor
  · intro h
    unfold analyzeMarket
    rw [if_pos h]
  · intro h hact
    obtain ⟨hsl, htp, hls⟩ := analyzeMarket_shape predict sqrtQ md h
    rw [hact] at hsl htp
    rw [if_neg (by decide)] at hsl
    rw [if_neg (by decide)] at htp
    exact ⟨hsl, htp, hls⟩

/-- Witness for C2 amended, at the flat 50-candle window with the
HOLD-preferring forward pass. -/
theorem analyzeMarket_hold_shape_witness :
    (analyzeMarket holdPredict (fun _ => 0) flatWindow).stopLoss =
      (flatWindow.getD (flatWindow.length - 1) dummyCandle).close +
        calculateATR flatWindow 14 * 2 ∧
    (analyzeMarket holdPredict (fun _ => 0) flatWindow).takeProfit =
      (flatWindow.getD (flatWindow.length - 1) dummyCandle).close -
        calculateATR flatWindow 14 * 3 ∧
    (analyzeMarket holdPredict (fun _ => 0) flatWindow).lotSize =
      min (0.1 * ((analyzeMarket holdPredict (fun _ => 0) flatWindow).confidence / 100)) 0.05 :=
  (analyzeMarket_hold_shape holdPredict (fun _ => 0) flatWindow).2 (by decide) (by decide)

/-- Counterexample to C8 as stated: on a flat (zero-ATR) window of 50
candles where the model prefers BUY, the BUY signal has
`stopLoss = currentPrice`, so `stopLoss < currentPrice` fails. -/
theorem c8_flat_window_no_strict_bracket :
    (analyzeMarket buyPredict (fun _ => 0) flatWindow).action = .BUY ∧
    ¬ ((analyzeMarket buyPredict (fun _ => 0) flatWindow).stopLoss <
        (flatWindow.getD (flatWindow.length - 1) dummyCandle).close) :=
  ⟨by decide, by decide⟩

/-- C8 amended: on a window of at least 50 candles, a BUY signal carries
`stopLoss = price − 2·ATR` and `takeProfit = price + 3·ATR`, and a SELL
signal the mirrored values; the strict bracket
`stopLoss < price < takeProfit` (resp. reversed for SELL) holds provided the
window's ATR is positive (it fails when ATR = 0). -/
theorem analyzeMarket_stop_take (predict : List ℚ → ℚ × ℚ × ℚ) (sqrtQ : SqrtFun)
    (md : List MarketData) (h50 : ¬ md.length < 50)
    (hatr : 0 < calculateATR md 14) :
    ((analyzeMarket predict sqrtQ md).action = .BUY →
      (analyzeMarket predict sqrtQ md).stopLoss =
        (md.getD (md.length - 1) dummyCandle).close - calculateATR md 14 * 2 ∧
      (analyzeMarket predict sqrtQ md).takeProfit =
        (md.getD (md.length - 1) dummyCandle).close + calculateATR md 14 * 3 ∧
      (analyzeMarket predict sqrtQ md).stopLoss <
        (md.getD (md.length - 1) dummyCandle).close ∧
      (md.getD (md.length - 1) dummyCandle).close <
        (analyzeMarket predict sqrtQ md).takeProfit) ∧
    ((analyzeMarket predict sqrtQ md).action = .SELL →
      (analyzeMarket predict sqrtQ md).takeProfit =
        (md.getD (md.length - 1) dummyCandle).close - calculateATR md 14 * 3 ∧
      (analyzeMarket predict sqrtQ md).stopLoss =
        (md.getD (md.length - 1) dummyCandle).close + calculateATR md 14 * 2 ∧
      (analyzeMarket predict sqrtQ md).takeProfit <
        (md.getD (md.length - 1) dummyCandle).close ∧
      (md.getD (md.length - 1) dummyCandle).close <
        (analyzeMarket predict sqrtQ md).stopLoss) := by
  obtain ⟨hsl, htp, _⟩ := analyzeMarket_shape predict sqrtQ md h50
  constructor <;> intro hact <;> rw [hact] at hsl htp
  · rw [if_pos rfl] at hsl htp
    exact ⟨hsl, htp, by rw [hsl]; linarith, by rw [htp]; linarith⟩
  · rw [if_neg (by decide)] at hsl
    rw [if_neg (by decide)] at htp
    exact ⟨htp, hsl, by rw [htp]; linarith, by rw [hsl]; linarith⟩

/-- Witness for C8 amended at the 50-candle, ATR-1 window with the
BUY-preferring forward pass. -/
theorem analyzeMarket_stop_take_witness :
    ((analyzeMarket buyPredict (fun _ => 0) rangeWindow).action = .BUY →
      (analyzeMarket buyPredict (fun _ => 0) rangeWindow).stopLoss =
        (rangeWindow.getD (rangeWindow.length - 1) dummyCandle).close -
          calculateATR rangeWindow 14 * 2 ∧
      (analyzeMarket buyPredict (fun _ => 0) rangeWindow).takeProfit =
        (rangeWindow.getD (rangeWindow.length - 1) dummyCandle).close +
          calculateATR rangeWindow 14 * 3 ∧
      (analyzeMarket buyPredict (fun _ => 0) rangeWindow).stopLoss <
        (rangeWindow.getD (rangeWindow.length - 1) dummyCandle).close ∧
      (rangeWindow.getD (rangeWindow.length - 1) dummyCandle).close <
        (analyzeMarket buyPredict (fun _ => 0) rangeWindow).takeProfit) ∧
    ((analyzeMarket buyPredict (fun _ => 0) rangeWindow).action = .SELL →
      (analyzeMarket buyPredict (fun _ => 0) rangeWindow).takeProfit =
        (rangeWindow.getD (rangeWindow.length - 1) dummyCandle).close -
          calculateATR rangeWindow 14 * 3 ∧
      (analyzeMarket buyPredict (fun _ => 0) rangeWindow).stopLoss =
        (rangeWindow.getD (rangeWindow.length - 1) dummyCandle).close +
          calculateATR rangeWindow 14 * 2 ∧
      (analyzeMarket buyPredict (fun _ => 0) rangeWindow).takeProfit <
        (rangeWindow.getD (rangeWindow.length - 1) dummyCandle).close ∧
      (rangeWindow.getD (rangeWindow.length - 1) dummyCandle).close <
        (analyzeMarket buyPredict (fun _ => 0) rangeWindow).stopLoss) :=
  analyzeMarket_stop_take buyPredict (fun _ => 0) rangeWindow (by decide) (by decide)

/-! ### String machinery for C10 -/

lemma natDigitChar_confChar (n : ℕ) : confChar (natDigitChar n) := by
  unfold natDigitChar
  split_ifs <;> decide

lemma natToDigitsAux_confChar : ∀ (fuel n : ℕ), ∀ ch ∈ natToDigitsAux fuel n, confChar ch := by
  intro fuel
  induction fuel with
  | zero =>
    intro n ch hch
    simp only [natToDigitsAux, List.mem_singleton] at hch
    subst hch
    exact natDigitChar_confChar n
  | succ f ih =>
    intro n ch hch
    unfold natToDigitsAux at hch
    split at hch
    · simp only [List.mem_singleton] at hch
      subst hch
      exact natDigitChar_confChar n
    · rcases List.mem_append.mp hch with h | h
      · exact ih _ ch h
      · simp only [List.mem_singleton] at h
        subst h
        exact natDigitChar_confChar _

lemma natToDigits_confChar (n : ℕ) : ∀ ch ∈ natToDigits n, confChar ch :=
  natToDigitsAux_confChar n n

lemma toFixed1List_confChar (q : ℚ) : ∀ ch ∈ toFixed1List q, confChar ch := by
  intro ch hch
  unfold toFixed1List at hch
  dsimp only at hch
  rcases List.mem_append.mp hch with h | h
  · rcases List.mem_append.mp h with h2 | h2
    · split at h2
      · simp only [List.mem_singleton] at h2
        subst h2
        decide
      · exact absurd h2 (List.not_mem_nil ch)
    · exact natToDigits_confChar _ ch h2
  · rcases List.mem_cons.mp h with h3 | h3
    · subst h3; decide
    · exact natToDigits_confChar _ ch h3

lemma toFixed1List_ne_nil (q : ℚ) : toFixed1List q ≠ [] := by
  unfold toFixed1List
  dsimp only
  intro h
  rcases List.append_eq_nil.mp h with ⟨-, h2⟩
  exact List.cons_ne_nil _ _ h2

/-- A pattern `p` containing no character of a nonempty middle chunk `c`
cannot occur across `a ++ c ++ b`: any occurrence lies wholly in `a` or
wholly in `b`. -/
lemma not_infix_sandwich {p a c b : List Char} (hp : p ≠ []) (hc : c ≠ [])
    (hdisj : ∀ x ∈ c, x ∉ p) (hpa : ¬ p <:+: a) (hpb : ¬ p <:+: b) :
    ¬ p <:+: a ++ (c ++ b) := by
  rintro ⟨s, t, hst⟩
  rcases le_or_lt (s.length + p.length) a.length with hcase1 | hcase1
  · -- the occurrence lies inside `a`
    apply hpa
    refine ⟨s, t.take (a.length - (s ++ p).length), ?_⟩
    have h1 : (s ++ p ++ t).take a.length =
        (s ++ p) ++ t.take (a.length - (s ++ p).length) := by
      rw [List.take_append_eq_append_take,
        List.take_of_length_le (by simp only [List.length_append]; omega)]
    have h2 : (a ++ (c ++ b)).take a.length = a := List.take_left a (c ++ b)
    calc s ++ p ++ t.take (a.length - (s ++ p).length)
        = (s ++ p ++ t).take a.length := h1.symm
      _ = a := by rw [hst]; exact h2
  rcases le_or_lt (a.length + c.length) s.length with hcase2 | hcase2
  · -- the occurrence lies inside `b`
    apply hpb
    refine ⟨s.drop (a.length + c.length), t, ?_⟩
    have h1 : (s ++ p ++ t).drop (a.length + c.length) =
        s.drop (a.length + c.length) ++ (p ++ t) := by
      rw [List.append_assoc, List.drop_append_eq_append_drop,
        Nat.sub_eq_zero_of_le hcase2, List.drop_zero]
    have h2 : (a ++ (c ++ b)).drop (a.length + c.length) = b := by
      rw [← List.append_assoc]
      have hl : a.length + c.length = (a ++ c).length := by simp
      rw [hl]
      exact List.drop_left _ _
    have h3 : s.drop (a.length + c.length) ++ (p ++ t) = b := by
      rw [← h1, hst]
      exact h2
    rw [← List.append_assoc] at h3
    exact h3
  · -- the occurrence overlaps `c`: impossible by character disjointness
    have hps : 0 < p.length := List.length_pos.mpr hp
    have hcs : 0 < c.length := List.length_pos.mpr hc
    have hj1 : max s.length a.length < s.length + p.length := max_lt (by omega) hcase1
    have hj2 : max s.length a.length < a.length + c.length := max_lt hcase2 (by omega)
    have hjtotal : max s.length a.length < (a ++ (c ++ b)).length := by
      simp only [List.length_append]; omega
    have hxc : (a ++ (c ++ b)).get ⟨max s.length a.length, hjtotal⟩ ∈ c := by
      rw [List.get_eq_getElem]
      rw [List.getElem_append_right (by omega : a.length ≤ max s.length a.length)]
      rw [List.getElem_append_left (by omega : max s.length a.length - a.length < c.length)]
      exact List.getElem_mem _
    have hxp : (a ++ (c ++ b)).get ⟨max s.length a.length, hjtotal⟩ ∈ p := by
      rw [List.get_eq_getElem]
      have hlen : max s.length a.length < (s ++ p ++ t).length := by
        simp only [List.length_append]; omega
      have heq := List.getElem_of_eq hst.symm hjtotal
      rw [heq]
      rw [List.getElem_append_left (by simp only [List.length_append]; omega :
        max s.length a.length < (s ++ p).length)]
      rw [List.getElem_append_right (by omega : s.length ≤ max s.length a.length)]
      exact List.getElem_mem _
    exact hdisj _ hxc hxp

/-- The decomposition of the reasoning string around the formatted
confidence. -/
lemma generateReasoning_data (action : TradeAction) (conf rsi : ℚ)
    (macd : MACDResult) (closes : List ℚ) :
    (generateReasoning action conf rsi macd closes).data =
      (actionString action ++ " signal (").data ++
        (toFixed1List conf ++
          ("% confidence): " ++
            String.intercalate ", " (reasonsList action rsi macd closes)).data) := by
  unfold generateReasoning toFixed1
  simp [List.append_assoc]

set_option linter.unusedVariables false in
/-- C10: for every (nonempty, so that the JavaScript original stays on
finite numbers) price sequence, the MACD signal line degenerates to the MACD
value (the 9-period EMA of the single-element list falls back to its last
element) and the histogram is exactly 0; consequently `generateReasoning`
never produces a reasoning string containing "MACD bullish" or
"MACD bearish". -/
theorem calculateMACD_degenerate (data : List ℚ) (hne : data ≠ []) :
    (calculateMACD data).signal = (calculateMACD data).macd ∧
    (calculateMACD data).histogram = 0 ∧
    (∀ (action : TradeAction) (conf rsi : ℚ) (closes : List ℚ),
      ¬ ("MACD bullish".toList <:+:
          (generateReasoning action conf rsi (calculateMACD data) closes).toList) ∧
      ¬ ("MACD bearish".toList <:+:
          (generateReasoning action conf rsi (calculateMACD data) closes).toList)) := by
  have hsig : (calculateMACD data).signal = (calculateMACD data).macd := by
    simp [calculateMACD, calculateEMA]
  have hhist : (calculateMACD data).histogram = 0 := by
    simp [calculateMACD, calculateEMA]
  refine ⟨hsig, hhist, fun action conf rsi closes => ⟨?_, ?_⟩⟩ <;>
  · simp only [String.toList]
    rw [generateReasoning_data]
    refine not_infix_sandwich (by decide) (toFixed1List_ne_nil conf) ?_ ?_ ?_
    · intro x hx hxp
      have hcc := toFixed1List_confChar conf x hx
      revert hcc
      revert hxp
      have hall : ∀ y ∈ ("MACD bullish".data ++ "MACD bearish".data), ¬ confChar y := by decide
      intro hxp
      exact hall x (List.mem_append.mpr (by first | exact Or.inl hxp | exact Or.inr hxp))
    · cases action <;> decide
    · cases action
      case BUY =>
        dsimp only [reasonsList]
        rw [hhist]
        by_cases h1 : rsi < 30 <;>
          by_cases h2 : closes.getD (closes.length - 5) 0 < closes.getD (closes.length - 1) 0 <;>
          simp only [h1, h2, if_true, if_false, lt_irrefl, List.append_nil, List.nil_append] <;>
          decide
      case SELL =>
        dsimp only [reasonsList]
        rw [hhist]
        by_cases h1 : 70 < rsi <;>
          by_cases h2 : closes.getD (closes.length - 1) 0 < closes.getD (closes.length - 5) 0 <;>
          simp only [h1, h2, if_true, if_false, lt_irrefl, List.append_nil, List.nil_append] <;>
          decide
      case HOLD =>
        dsimp only [reasonsList]
        decide

/-- Witness for C10 at `data = [1]`. -/
theorem calculateMACD_degenerate_witness :
    (calculateMACD [1]).signal = (calculateMACD [1]).macd ∧
    (calculateMACD [1]).histogram = 0 ∧
    (∀ (action : TradeAction) (conf rsi : ℚ) (closes : List ℚ),
      ¬ ("MACD bullish".toList <:+:
          (generateReasoning action conf rsi (calculateMACD [1]) closes).toList) ∧
      ¬ ("MACD bearish".toList <:+:
          (generateReasoning action conf rsi (calculateMACD [1]) closes).toList)) :=
  calculateMACD_degenerate [1] (by decide)

/-! ### Bridge preservation lemmas -/

lemma updateAccountInfo_invariant (st : BridgeState) :
    accountInvariant (updateAccountInfo st) := by
  simp [accountInvariant, updateAccountInfo]

lemma accountInvariant_congr {st st' : BridgeState}
    (hpos : st'.positions = st.positions) (hacc : st'.accountInfo = st.accountInfo)
    (h : accountInvariant st) : accountInvariant st' := by
  unfold accountInvariant at *
  rw [hpos, hacc]
  exact h

lemma updateMarketData_positions (rng : ℕ → ℚ) (st : BridgeState) :
    (updateMarketData rng st).positions = st.positions := by
  unfold updateMarketData
  split <;> simp [drawRand, tickNow]

lemma updateMarketData_accountInfo (rng : ℕ → ℚ) (st : BridgeState) :
    (updateMarketData rng st).accountInfo = st.accountInfo := by
  unfold updateMarketData
  split <;> simp [drawRand, tickNow]

lemma updateMarketData_connected (rng : ℕ → ℚ) (st : BridgeState) :
    (updateMarketData rng st).connected = st.connected := by
  unfold updateMarketData
  split <;> simp [drawRand, tickNow]

lemma updateAccountInfo_connected (st : BridgeState) :
    (updateAccountInfo st).connected = st.connected := rfl

lemma seedMarketData_positions (rng : ℕ → ℚ) (st : BridgeState) :
    (seedMarketData rng st).positions = st.positions := rfl

lemma seedMarketData_accountInfo (rng : ℕ → ℚ) (st : BridgeState) :
    (seedMarketData rng st).accountInfo = st.accountInfo := rfl

lemma getMarketData_connected (rng : ℕ → ℚ) (st : BridgeState) (bars : ℕ) :
    ((getMarketData rng st bars).2).connected = st.connected := by
  unfold getMarketData
  split_ifs <;> first | rfl | (dsimp only; exact updateMarketData_connected rng st)

lemma getMarketData_positions (rng : ℕ → ℚ) (st : BridgeState) (bars : ℕ) :
    ((getMarketData rng st bars).2).positions = st.positions := by
  unfold getMarketData
  split_ifs <;> first | rfl | (dsimp only; exact updateMarketData_positions rng st)

lemma getMarketData_accountInfo (rng : ℕ → ℚ) (st : BridgeState) (bars : ℕ) :
    ((getMarketData rng st bars).2).accountInfo = st.accountInfo := by
  unfold getMarketData
  split_ifs <;> first | rfl | (dsimp only; exact updateMarketData_accountInfo rng st)

lemma closePosition_connected (st : BridgeState) (t : ℕ) :
    ((closePosition st t).2).connected = st.connected := by
  unfold closePosition
  split_ifs with h
  · split
    · rfl
    · rfl
  · rfl

lemma getPositionsLoop_connected (rng : ℕ → ℚ) :
    ∀ (fuel : ℕ) (st : BridgeState) (k : ℕ),
      ((getPositionsLoop rng fuel st k).2).connected = st.connected := by
  intro fuel
  induction fuel with
  | zero => intro st k; rfl
  | succ f ih =>
    intro st k
    unfold getPositionsLoop
    split
    · split
      · next e st1 heq =>
        have := getMarketData_connected rng st 1
        rw [heq] at this
        exact this
      · next data st1 heq =>
        rw [ih]
        have h1 : st1.connected = st.connected := by
          have := getMarketData_connected rng st 1
          rw [heq] at this
          exact this
        split
        · rw [closePosition_connected]
          exact h1
        · exact h1
    · rfl

lemma getPositions_connected (rng : ℕ → ℚ) (st : BridgeState) :
    ((getPositions rng st).2).connected = st.connected := by
  unfold getPositions
  split_ifs with h
  · split
    · next e st1 heq =>
      have := getPositionsLoop_connected rng (st.positions.length + 1) st 0
      rw [heq] at this
      exact this
    · next u st1 heq =>
      have := getPositionsLoop_connected rng (st.positions.length + 1) st 0
      rw [heq] at this
      exact this
  · rfl

/-- C1 amended: the account invariant is established or preserved by
`connect`, `getMarketData`, `openPosition`, `closePosition` and
`getAccountInfo` (on all paths, error paths leaving the account untouched),
and is restored by the `getAccountInfo` that follows a `getPositions`; a
bare `getPositions`, however, can break it (see the counterexample), because
it re-marks position profits without recomputing the stored account. -/
theorem bridge_account_invariant (rng : ℕ → ℚ) (st : BridgeState) (cfg : MT5Config)
    (symbol : String) (type : TradeAction) (volume stopLoss takeProfit : ℚ)
    (ticket bars : ℕ) (hinv : accountInvariant st) :
    accountInvariant (connect rng cfg st).2 ∧
    accountInvariant (getMarketData rng st bars).2 ∧
    accountInvariant (openPosition rng st symbol type volume stopLoss takeProfit).2 ∧
    accountInvariant (closePosition st ticket).2 ∧
    accountInvariant (getAccountInfo st).2 ∧
    accountInvariant (getAccountInfo (getPositions rng st).2).2 := by
  have hgmd : ∀ bars, accountInvariant (getMarketData rng st bars).2 := fun bars =>
    accountInvariant_congr (getMarketData_positions rng st bars)
      (getMarketData_accountInfo rng st bars) hinv
  have hacc : ∀ s : BridgeState, accountInvariant s → accountInvariant (getAccountInfo s).2 := by
    intro s hs
    unfold getAccountInfo
    split_ifs with h
    · exact updateAccountInfo_invariant s
    · exact hs
  refine ⟨?_, hgmd bars, ?_, ?_, hacc st hinv, ?_⟩
  · unfold connect
    split_ifs with h
    · exact accountInvariant_congr rfl rfl hinv
    · exact accountInvariant_congr (seedMarketData_positions rng _)
        (seedMarketData_accountInfo rng _) (accountInvariant_congr rfl rfl hinv)
  · unfold openPosition
    split_ifs with h
    · dsimp only
      split
      · next e st1 heq =>
        have := hgmd 1
        rw [heq] at this
        exact this
      · next data st1 heq =>
        exact updateAccountInfo_invariant _
    · exact hinv
  · unfold closePosition
    split_ifs with h
    · split
      · exact hinv
      · exact updateAccountInfo_invariant _
    · exact hinv
  · unfold getAccountInfo
    split_ifs with h
    · exact updateAccountInfo_invariant _
    · -- `getPositions` left the bridge disconnected, so it did not run
      have hc := getPositions_connected rng st
      unfold getPositions at h hc ⊢
      split_ifs at h hc ⊢ with h2
      · split at h
        · next e st1 heq =>
          rw [heq] at hc
          dsimp only at hc h
          rw [hc] at h
          exact absurd h2 h
        · next u st1 heq =>
          rw [heq] at hc
          dsimp only at hc h
          rw [hc] at h
          exact absurd h2 h
      · exact hinv

/-- Witness for C1 amended at the freshly constructed bridge state. -/
theorem bridge_account_invariant_witness :
    accountInvariant (initialBridgeState 0) ∧
    (accountInvariant (connect (fun _ => 1/2) ⟨"1", "1", "1", "EURUSD"⟩ (initialBridgeState 0)).2 ∧
    accountInvariant (getMarketData (fun _ => 1/2) (initialBridgeState 0) 100).2 ∧
    accountInvariant
      (openPosition (fun _ => 1/2) (initialBridgeState 0) "EURUSD" .BUY 0.01 0 1000).2 ∧
    accountInvariant (closePosition (initialBridgeState 0) 3).2 ∧
    accountInvariant (getAccountInfo (initialBridgeState 0)).2 ∧
    accountInvariant (getAccountInfo (getPositions (fun _ => 1/2) (initialBridgeState 0)).2).2) :=
  ⟨by decide, bridge_account_invariant (fun _ => 1/2) (initialBridgeState 0)
    ⟨"1", "1", "1", "EURUSD"⟩ "EURUSD" .BUY 0.01 0 1000 3 100 (by decide)⟩

set_option maxRecDepth 1000000 in
/-- Counterexample to C1 as stated: starting from the initial connected
state, `connect; openPosition; getPositions` is a sequence after whose last
operation the stored `AccountInfo` violates the invariant — draw 509 moves
the price, `getPositions` re-marks the position's profit to −0.82125, and
the stored equity stays at 10000 = balance, no longer balance + Σ profit. -/
theorem c1_getPositions_breaks_invariant :
    accountInvariant c1Connected ∧ accountInvariant c1Opened ∧
    ¬ accountInvariant (getPositions rngDip509 c1Opened).2 :=
  ⟨by decide, by decide, by decide⟩

/-! ### C3: marking behaviour of `getPositions` -/

lemma sameMarket_refl (st : BridgeState) : sameMarket st st := ⟨rfl, rfl, rfl, rfl⟩

lemma updateMarketData_sameMarket (rng : ℕ → ℚ) {st st' : BridgeState}
    (h : sameMarket st st') :
    sameMarket (updateMarketData rng st) (updateMarketData rng st') := by
  obtain ⟨h1, h2, h3, h4⟩ := h
  unfold updateMarketData
  rw [h1]
  split
  · exact ⟨h1, h2, h3, h4⟩
  · simp [sameMarket, drawRand, tickNow, h2, h3, h4]

lemma advanceMarket_sameMarket (rng : ℕ → ℚ) (n : ℕ) :
    ∀ {st st' : BridgeState}, sameMarket st st' →
      sameMarket (advanceMarket rng n st) (advanceMarket rng n st') := by
  induction n with
  | zero => intro st st' h; exact h
  | succ m ih => intro st st' h; exact ih (updateMarketData_sameMarket rng h)

lemma advanceMarket_succ (rng : ℕ → ℚ) (n : ℕ) (st : BridgeState) :
    advanceMarket rng n (updateMarketData rng st) = advanceMarket rng (n + 1) st := rfl

lemma latestClose_sameMarket {st st' : BridgeState} (h : sameMarket st st') :
    latestClose st = latestClose st' := by
  unfold latestClose
  rw [h.1]

lemma markPosition_ticket (p : MT5Position) (c : ℚ) :
    (markPosition p c).ticket = p.ticket := rfl

lemma getD_drop_length_sub_one {α : Type} (h : List α) (d : α) :
    (h.drop (h.length - 1)).getD 0 d = h.getLastD d := by
  induction h with
  | nil => rfl
  | cons a t ih =>
    cases t with
    | nil => rfl
    | cons b t2 =>
      have hlen : (a :: b :: t2).length - 1 = t2.length + 1 := by simp
      rw [hlen, List.drop_succ_cons]
      have hlen2 : (b :: t2).length - 1 = t2.length := by simp
      rw [hlen2] at ih
      rw [ih]
      simp [List.getLastD_cons]

/-- `getMarketData` with one bar on a connected state: one walk advance,
returning the last candle. -/
lemma getMarketData_one_eq (rng : ℕ → ℚ) (st : BridgeState)
    (hconn : st.connected = true) :
    getMarketData rng st 1 =
      (.ok (((updateMarketData rng st).history.getD []).drop
        (((updateMarketData rng st).history.getD []).length - 1)),
       updateMarketData rng st) := by
  unfold getMarketData
  rw [if_pos hconn]
  dsimp only
  rw [if_neg one_ne_zero]

lemma closePosition_length_le (st : BridgeState) (t : ℕ) :
    ((closePosition st t).2).positions.length ≤ st.positions.length := by
  unfold closePosition
  split_ifs with h
  · split
    · exact le_rfl
    · simp only [updateAccountInfo]
      exact le_trans ( List.length_eraseIdx_le _ _) le_rfl
  · exact le_rfl

lemma closePosition_length_of_mem (st : BridgeState) (t : ℕ)
    (hconn : st.connected = true)
    (hmem : ∃ p ∈ st.positions, (p.ticket == t) = true) :
    ((closePosition st t).2).positions.length = st.positions.length - 1 := by
  obtain ⟨p, hp, hpt⟩ := hmem
  have hi := @List.findIdx?_eq_some_of_exists _ st.positions
    (fun q => q.ticket == t) ⟨p, hp, hpt⟩
  have hilt : st.positions.findIdx (fun q => q.ticket == t) < st.positions.length :=
    (List.findIdx?_eq_some_iff_getElem.mp hi).1
  unfold closePosition
  rw [if_pos hconn, hi]
  simp [updateAccountInfo, List.length_eraseIdx, hilt]

lemma getPositionsLoop_length_le (rng : ℕ → ℚ) :
    ∀ (fuel : ℕ) (st : BridgeState) (k : ℕ),
      ((getPositionsLoop rng fuel st k).2).positions.length ≤ st.positions.length := by
  intro fuel
  induction fuel with
  | zero => intro st k; exact le_rfl
  | succ f ih =>
    intro st k
    unfold getPositionsLoop
    split
    · split
      · next e st1 heq =>
        have hthis := getMarketData_positions rng st 1
        rw [heq] at hthis
        dsimp only at hthis ⊢
        simp [hthis]
      · next data st1 heq =>
        refine le_trans (ih _ _) ?_
        have hpos : st1.positions = st.positions := by
          have hthis := getMarketData_positions rng st 1
          rw [heq] at hthis
          exact hthis
        split
        · refine le_trans (closePosition_length_le _ _) ?_
          simp [hpos]
        · simp [hpos]
    · exact le_rfl

lemma getPositionsLoop_ok (rng : ℕ → ℚ) :
    ∀ (fuel : ℕ) (st : BridgeState) (k : ℕ), st.connected = true →
      (getPositionsLoop rng fuel st k).1 = .ok () := by
  intro fuel
  induction fuel with
  | zero => intro st k _; rfl
  | succ f ih =>
    intro st k hconn
    unfold getPositionsLoop
    split
    · rw [getMarketData_one_eq rng st hconn]
      dsimp only
      apply ih
      split
      · rw [closePosition_connected]
        exact (updateMarketData_connected rng st).trans hconn
      · exact (updateMarketData_connected rng st).trans hconn
    · rfl

lemma getD_set_ne {α : Type} (l : List α) (k i : ℕ) (a d : α) (h : k ≠ i) :
    (l.set k a).getD i d = l.getD i d := by
  rw [List.getD_eq_getElem?_getD, List.getD_eq_getElem?_getD, List.getElem?_set_ne h]

lemma getD_set_self {α : Type} (l : List α) (k : ℕ) (a d : α) (h : k < l.length) :
    (l.set k a).getD k d = a := by
  rw [List.getD_eq_getElem?_getD, List.getElem?_set_self]
  · rfl
  · exact h

/-- The `getPositions` loop, when it closes nothing (witnessed by the
position count being preserved): every position from index `k` on is marked
to the close of its own freshly generated candle, is uncrossed there, and
positions below `k` are untouched. -/
lemma getPositionsLoop_no_close (rng : ℕ → ℚ) :
    ∀ (fuel : ℕ) (st : BridgeState) (k : ℕ),
      st.connected = true →
      st.positions.length < fuel + k →
      ((getPositionsLoop rng fuel st k).2).positions.length = st.positions.length →
      (∀ i, i < k →
        ((getPositionsLoop rng fuel st k).2).positions.getD i dummyPosition =
          st.positions.getD i dummyPosition) ∧
      (∀ i, k ≤ i → i < st.positions.length →
        ((getPositionsLoop rng fuel st k).2).positions.getD i dummyPosition =
          markPosition (st.positions.getD i dummyPosition)
            (latestClose (advanceMarket rng (i - k + 1) st)) ∧
        crossed (((getPositionsLoop rng fuel st k).2).positions.getD i dummyPosition)
          = false) := by
  intro fuel
  induction fuel with
  | zero =>
    intro st k hconn hfuel hlen
    exact ⟨fun i _ => rfl, fun i hki hilen => absurd hilen (by omega)⟩
  | succ f ih =>
    intro st k hconn hfuel hlen
    have hmd := getMarketData_one_eq rng st hconn
    have hpos1 : (updateMarketData rng st).positions = st.positions :=
      updateMarketData_positions rng st
    have hconn1 : (updateMarketData rng st).connected = true :=
      (updateMarketData_connected rng st).trans hconn
    by_cases hk : k < st.positions.length
    · have heqprice :
          ((((updateMarketData rng st).history.getD []).drop
            (((updateMarketData rng st).history.getD []).length - 1)).getD 0
              dummyCandle).close = latestClose (updateMarketData rng st) := by
        rw [getD_drop_length_sub_one]
        rfl
      unfold getPositionsLoop at hlen ⊢
      rw [dif_pos hk, hmd] at hlen ⊢
      dsimp only at hlen ⊢
      rw [heqprice] at hlen ⊢
      rw [List.get_eq_getElem] at hlen ⊢
      set P2 := markPosition st.positions[k]
        (latestClose (updateMarketData rng st)) with hP2
      set ST2 : BridgeState :=
        { updateMarketData rng st with
          positions := (updateMarketData rng st).positions.set k P2 } with hST2
      have hST2pos : ST2.positions = st.positions.set k P2 := by
        rw [hST2]
        dsimp only
        rw [hpos1]
      have hST2len : ST2.positions.length = st.positions.length := by
        rw [hST2pos, List.length_set]
      have hST2conn : ST2.connected = true := hconn1
      -- the marked position cannot have crossed its stop or take here,
      -- else the final count would have dropped
      have hnocross : crossed P2 = false := by
        by_contra hcr
        have hcr2 : crossed P2 = true := by
          cases hcrossed : crossed P2
          · exact absurd hcrossed hcr
          · rfl
        rw [if_pos hcr2] at hlen
        have hmem : ∃ p ∈ ST2.positions, (p.ticket == P2.ticket) = true := by
          refine ⟨P2, ?_, by simp⟩
          rw [hST2pos]
          have hk2 : k < (st.positions.set k P2).length := by
            rw [List.length_set]
            exact hk
          have hmm := List.getElem_mem hk2
          rwa [List.getElem_set_self] at hmm
        have hclose := closePosition_length_of_mem ST2 P2.ticket hST2conn hmem
        have hloople := getPositionsLoop_length_le rng f
          ((closePosition ST2 P2.ticket).2) (k + 1)
        omega
      rw [if_neg (by rw [hnocross]; exact Bool.false_ne_true)] at hlen ⊢
      have hIH := ih ST2 (k + 1) hST2conn (by omega) (by omega)
      obtain ⟨hpre, hsuf⟩ := hIH
      constructor
      · intro i hik
        rw [hpre i (by omega), hST2pos,
          getD_set_ne st.positions k i P2 dummyPosition (by omega)]
      · intro i hki hilen
        rcases Nat.eq_or_lt_of_le hki with heq | hlt
        · subst heq
          have hres := hpre k (by omega)
          rw [hres, hST2pos, getD_set_self _ _ _ _ hk]
          have hval : st.positions.getD k dummyPosition = st.positions[k] :=
            List.getD_eq_getElem _ _ hk
          constructor
          · rw [hval, hP2]
            have hkk : k - k + 1 = 1 := by omega
            rw [hkk]
            rfl
          · exact hnocross
        · have hres := hsuf i (by omega) (by omega)
          have hgd : ST2.positions.getD i dummyPosition =
              st.positions.getD i dummyPosition := by
            rw [hST2pos, getD_set_ne st.positions k i P2 dummyPosition (by omega)]
          have hsm : sameMarket ST2 (updateMarketData rng st) := ⟨rfl, rfl, rfl, rfl⟩
          have hlc : latestClose (advanceMarket rng (i - (k + 1) + 1) ST2) =
              latestClose (advanceMarket rng (i - k + 1) st) := by
            have h1 : i - (k + 1) + 1 = i - k := by omega
            rw [h1]
            rw [latestClose_sameMarket (advanceMarket_sameMarket rng (i - k) hsm)]
            rw [advanceMarket_succ]
          rw [hgd, hlc] at hres
          exact hres
    · unfold getPositionsLoop at hlen ⊢
      rw [dif_neg hk] at hlen ⊢
      exact ⟨fun i _ => rfl, fun i hki hilen => absurd hilen (by omega)⟩

/-- Counterexample to C3 as stated: on `c3State`, `getPositions` closes the
first position, which shifts the array under the `for...of` iterator, so the
second (equally crossed) position is skipped — it is returned unmarked with
its stop crossed, falsifying "no returned position has a crossed stop or
take". -/
theorem c3_crossed_position_returned :
    c3State.connected = true ∧ ¬ c3ClaimProperty (fun _ => 1/2) c3State :=
  ⟨by decide, by decide⟩

/-- C3 amended: one `getPositions` call advances the walk once per examined
position, so each examined position is marked to the close of its *own*
fresh candle (not one shared latest close), with
profit = signed diff · volume · 100000; a position whose mark crosses its
stop/take is closed, but the close shifts the array under the iterator and
the following position is skipped entirely.  When no position is closed
during the call (the returned count equals the open count), every position
is marked this way, tickets are unchanged, and no returned position has a
crossed stop or take at its own marked price. -/
theorem getPositions_no_close_marks (rng : ℕ → ℚ) (st : BridgeState)
    (hconn : st.connected = true)
    (hlen : ((getPositions rng st).2).positions.length = st.positions.length) :
    (getPositions rng st).1 = .ok ((getPositions rng st).2).positions ∧
    ((getPositions rng st).2).positions.map MT5Position.ticket =
      st.positions.map MT5Position.ticket ∧
    (∀ i, i < st.positions.length →
      ((getPositions rng st).2).positions.getD i dummyPosition =
        markPosition (st.positions.getD i dummyPosition)
          (latestClose (advanceMarket rng (i + 1) st)) ∧
      crossed (((getPositions rng st).2).positions.getD i dummyPosition) = false) := by
  have hok := getPositionsLoop_ok rng (st.positions.length + 1) st 0 hconn
  rcases hres : getPositionsLoop rng (st.positions.length + 1) st 0 with ⟨r, st2⟩
  rw [hres] at hok
  dsimp only at hok
  subst hok
  have hgp : getPositions rng st = (.ok st2.positions, st2) := by
    unfold getPositions
    rw [if_pos hconn, hres]
  rw [hgp] at hlen
  dsimp only at hlen
  have hloop := getPositionsLoop_no_close rng (st.positions.length + 1) st 0 hconn
    (by omega) (by rw [hres]; exact hlen)
  rw [hres] at hloop
  dsimp only at hloop
  obtain ⟨-, hsuf⟩ := hloop
  have hsuf2 : ∀ i, i < st.positions.length →
      st2.positions.getD i dummyPosition =
        markPosition (st.positions.getD i dummyPosition)
          (latestClose (advanceMarket rng (i + 1) st)) ∧
      crossed (st2.positions.getD i dummyPosition) = false := by
    intro i hi
    have h := hsuf i (Nat.zero_le i) hi
    rwa [Nat.sub_zero] at h
  refine ⟨by rw [hgp], ?_, ?_⟩
  · rw [hgp]
    dsimp only
    apply List.ext_getElem
    · simp [hlen]
    · intro i h1 h2
      rw [List.getElem_map, List.getElem_map]
      have hi : i < st.positions.length := by simpa using h2
      have hi2 : i < st2.positions.length := by simpa using h1
      have h := (hsuf2 i hi).1
      rw [List.getD_eq_getElem _ _ hi2, List.getD_eq_getElem _ _ hi] at h
      rw [h, markPosition_ticket]
  · intro i hi
    rw [hgp]
    dsimp only
    exact hsuf2 i hi

/-- Witness for C3 amended on the one-position, no-close state. -/
theorem getPositions_no_close_marks_witness :
    (getPositions (fun _ => 1/2) c3Calm).1 =
      .ok ((getPositions (fun _ => 1/2) c3Calm).2).positions ∧
    ((getPositions (fun _ => 1/2) c3Calm).2).positions.map MT5Position.ticket =
      c3Calm.positions.map MT5Position.ticket ∧
    (∀ i, i < c3Calm.positions.length →
      ((getPositions (fun _ => 1/2) c3Calm).2).positions.getD i dummyPosition =
        markPosition (c3Calm.positions.getD i dummyPosition)
          (latestClose (advanceMarket (fun _ => 1/2) (i + 1) c3Calm)) ∧
      crossed (((getPositions (fun _ => 1/2) c3Calm).2).positions.getD i dummyPosition)
        = false) :=
  getPositions_no_close_marks (fun _ => 1/2) c3Calm (by decide) (by decide)

/-! ### C4: `managePositions` record keeping -/

lemma getPositions_connected_ok (rng : ℕ → ℚ) (st : BridgeState)
    (hconn : st.connected = true) :
    ∃ st2 : BridgeState, getPositions rng st = (.ok st2.positions, st2) ∧
      st2.connected = true := by
  have hok := getPositionsLoop_ok rng (st.positions.length + 1) st 0 hconn
  have hcn := getPositionsLoop_connected rng (st.positions.length + 1) st 0
  rcases hres : getPositionsLoop rng (st.positions.length + 1) st 0 with ⟨r, st2⟩
  rw [hres] at hok hcn
  dsimp only at hok hcn
  subst hok
  refine ⟨st2, ?_, hcn.trans hconn⟩
  unfold getPositions
  rw [if_pos hconn, hres]

/-- Per-iteration specification of the `managePositions` loop: every
baseline position is examined exactly once and in order; an iteration whose
fresh re-query still contains the ticket appends nothing; an iteration whose
re-query lost the ticket appends exactly one CLOSE record (id = the ticket,
profit = the profit passed to the one matching learning call), emits it, and
makes exactly one `learnFromTrade` invocation. -/
lemma manageLoop_spec {P : Type} (step : P → List ℚ → List ℚ → P) (sqrtQ : SqrtFun)
    (rng : ℕ → ℚ) (md : List MarketData) :
    ∀ (B : List MT5Position) (st : BotState P), st.bridge.connected = true →
      ((manageLoop step sqrtQ rng st md B).2.map CheckEntry.ticket =
        B.map MT5Position.ticket) ∧
      ((manageLoop step sqrtQ rng st md B).1.tradeHistory =
        st.tradeHistory ++ (manageLoop step sqrtQ rng st md B).2.filterMap CheckEntry.record) ∧
      ((manageLoop step sqrtQ rng st md B).1.emitted =
        st.emitted ++ (manageLoop step sqrtQ rng st md B).2.filterMap CheckEntry.record) ∧
      ((manageLoop step sqrtQ rng st md B).1.learnCalls =
        st.learnCalls ++ (manageLoop step sqrtQ rng st md B).2.filterMap CheckEntry.learn) ∧
      (∀ c ∈ (manageLoop step sqrtQ rng st md B).2,
        (c.present = true → c.record = none ∧ c.learn = none) ∧
        (c.present = false → ∃ r pl, c.record = some r ∧ c.learn = some pl ∧
          r.action = .CLOSE ∧ r.id = c.ticket ∧ r.profit = some pl.2)) := by
  intro B
  induction B with
  | nil =>
    intro st hconn
    refine ⟨rfl, by simp [manageLoop], by simp [manageLoop], by simp [manageLoop], ?_⟩
    intro c hc
    simp [manageLoop] at hc
  | cons position rest ih =>
    intro st hconn
    obtain ⟨br, hgp, hbrconn⟩ := getPositions_connected_ok rng st.bridge hconn
    unfold manageLoop
    rw [hgp]
    dsimp only
    by_cases hpres : br.positions.any (fun p => p.ticket == position.ticket) = true
    · rw [if_pos hpres]
      have hih := ih { st with bridge := br } hbrconn
      obtain ⟨h1, h2, h3, h4, h5⟩ := hih
      refine ⟨?_, ?_, ?_, ?_, ?_⟩
      · simp only [List.map_cons]
        rw [h1]
      · simpa using h2
      · simpa using h3
      · simpa using h4
      · intro c hc
        rcases List.mem_cons.mp hc with hhd | htl
        · subst hhd
          exact ⟨fun _ => ⟨rfl, rfl⟩, fun hfalse => by simp at hfalse⟩
        · exact h5 c htl
    · rw [if_neg hpres]
      simp only [tickNow]
      have hih := ih
        { st with
          bridge := { br with now := br.now + 1 },
          tradeHistory := st.tradeHistory ++
            [⟨position.ticket, br.now, (objectState br position).symbol, .CLOSE,
              (objectState br position).currentPrice, (objectState br position).volume,
              some (objectState br position).profit,
              closeReasonStr (objectState br position).profit⟩],
          emitted := st.emitted ++
            [⟨position.ticket, br.now, (objectState br position).symbol, .CLOSE,
              (objectState br position).currentPrice, (objectState br position).volume,
              some (objectState br position).profit,
              closeReasonStr (objectState br position).profit⟩],
          learnCalls := st.learnCalls ++ [(position.type, (objectState br position).profit)],
          engine := learnFromTrade step sqrtQ st.engine md position.type
            (objectState br position).profit }
        hbrconn
      obtain ⟨h1, h2, h3, h4, h5⟩ := hih
      refine ⟨?_, ?_, ?_, ?_, ?_⟩
      · simp only [List.map_cons]
        rw [h1]
      · simp only [List.filterMap_cons]
        rw [h2]
        simp [List.append_assoc]
      · simp only [List.filterMap_cons]
        rw [h3]
        simp [List.append_assoc]
      · simp only [List.filterMap_cons]
        rw [h4]
        simp [List.append_assoc]
      · intro c hc
        rcases List.mem_cons.mp hc with hhd | htl
        · subst hhd
          refine ⟨fun htrue => by simp at htrue, fun _ => ?_⟩
          exact ⟨_, (position.type, (objectState br position).profit), rfl, rfl,
            rfl, rfl, rfl⟩
        · exact h5 c htl

/-- C4 amended: during a tick's `managePositions`, the previously known set
is the baseline query's result, and each baseline ticket is diffed against
its *own* per-iteration re-query (not one shared re-query): a ticket absent
from that iteration's query gets exactly one CLOSE record — carrying the
aliased position object's profit, which also feeds exactly one
`learnFromTrade` invocation — and is emitted once; a ticket still present
at its own check gets nothing, even if it disappears in a later iteration's
query (see the counterexample). -/
theorem managePositions_per_check_records {P : Type}
    (step : P → List ℚ → List ℚ → P) (sqrtQ : SqrtFun) (rng : ℕ → ℚ)
    (st : BotState P) (md : List MarketData)
    (hconn : st.bridge.connected = true) :
    managePositions step sqrtQ rng st md =
      (manageLoop step sqrtQ rng { st with bridge := (getPositions rng st.bridge).2 } md
        ((getPositions rng st.bridge).2).positions).1 ∧
    ((manageLoop step sqrtQ rng { st with bridge := (getPositions rng st.bridge).2 } md
        ((getPositions rng st.bridge).2).positions).2.map CheckEntry.ticket =
      ((getPositions rng st.bridge).2).positions.map MT5Position.ticket) ∧
    ((manageLoop step sqrtQ rng { st with bridge := (getPositions rng st.bridge).2 } md
        ((getPositions rng st.bridge).2).positions).1.tradeHistory =
      st.tradeHistory ++
        (manageLoop step sqrtQ rng { st with bridge := (getPositions rng st.bridge).2 } md
          ((getPositions rng st.bridge).2).positions).2.filterMap CheckEntry.record) ∧
    ((manageLoop step sqrtQ rng { st with bridge := (getPositions rng st.bridge).2 } md
        ((getPositions rng st.bridge).2).positions).1.emitted =
      st.emitted ++
        (manageLoop step sqrtQ rng { st with bridge := (getPositions rng st.bridge).2 } md
          ((getPositions rng st.bridge).2).positions).2.filterMap CheckEntry.record) ∧
    ((manageLoop step sqrtQ rng { st with bridge := (getPositions rng st.bridge).2 } md
        ((getPositions rng st.bridge).2).positions).1.learnCalls =
      st.learnCalls ++
        (manageLoop step sqrtQ rng { st with bridge := (getPositions rng st.bridge).2 } md
          ((getPositions rng st.bridge).2).positions).2.filterMap CheckEntry.learn) ∧
    (∀ c ∈ (manageLoop step sqrtQ rng { st with bridge := (getPositions rng st.bridge).2 } md
        ((getPositions rng st.bridge).2).positions).2,
      (c.present = true → c.record = none ∧ c.learn = none) ∧
      (c.present = false → ∃ r pl, c.record = some r ∧ c.learn = some pl ∧
        r.action = .CLOSE ∧ r.id = c.ticket ∧ r.profit = some pl.2)) := by
  obtain ⟨br, hgp, hbrconn⟩ := getPositions_connected_ok rng st.bridge hconn
  have hbr2 : (getPositions rng st.bridge).2 = br := by rw [hgp]
  have hspec := manageLoop_spec step sqrtQ rng md br.positions { st with bridge := br } hbrconn
  rw [hbr2]
  refine ⟨?_, hspec.1, hspec.2.1, hspec.2.2.1, hspec.2.2.2.1, hspec.2.2.2.2⟩
  unfold managePositions
  rw [hgp]

/-- Witness for C4 amended: a one-position connected bot state where the
position survives its check. -/
theorem managePositions_per_check_records_witness :
    (managePositions (fun (p : Unit) _ _ => p) (fun _ => 0) (fun _ => 1/2)
        ⟨c3Calm, ⟨(), false⟩, [], [], []⟩ [] =
      (manageLoop (fun (p : Unit) _ _ => p) (fun _ => 0) (fun _ => 1/2)
        { (⟨c3Calm, ⟨(), false⟩, [], [], []⟩ : BotState Unit) with
          bridge := (getPositions (fun _ => 1/2) c3Calm).2 } []
        ((getPositions (fun _ => 1/2) c3Calm).2).positions).1) ∧
    ((manageLoop (fun (p : Unit) _ _ => p) (fun _ => 0) (fun _ => 1/2)
        { (⟨c3Calm, ⟨(), false⟩, [], [], []⟩ : BotState Unit) with
          bridge := (getPositions (fun _ => 1/2) c3Calm).2 } []
        ((getPositions (fun _ => 1/2) c3Calm).2).positions).2.map CheckEntry.ticket =
      ((getPositions (fun _ => 1/2) c3Calm).2).positions.map MT5Position.ticket) ∧
    ((manageLoop (fun (p : Unit) _ _ => p) (fun _ => 0) (fun _ => 1/2)
        { (⟨c3Calm, ⟨(), false⟩, [], [], []⟩ : BotState Unit) with
          bridge := (getPositions (fun _ => 1/2) c3Calm).2 } []
        ((getPositions (fun _ => 1/2) c3Calm).2).positions).1.tradeHistory =
      ([] : List TradeHistory) ++
        (manageLoop (fun (p : Unit) _ _ => p) (fun _ => 0) (fun _ => 1/2)
          { (⟨c3Calm, ⟨(), false⟩, [], [], []⟩ : BotState Unit) with
            bridge := (getPositions (fun _ => 1/2) c3Calm).2 } []
          ((getPositions (fun _ => 1/2) c3Calm).2).positions).2.filterMap
            CheckEntry.record) ∧
    ((manageLoop (fun (p : Unit) _ _ => p) (fun _ => 0) (fun _ => 1/2)
        { (⟨c3Calm, ⟨(), false⟩, [], [], []⟩ : BotState Unit) with
          bridge := (getPositions (fun _ => 1/2) c3Calm).2 } []
        ((getPositions (fun _ => 1/2) c3Calm).2).positions).1.emitted =
      ([] : List TradeHistory) ++
        (manageLoop (fun (p : Unit) _ _ => p) (fun _ => 0) (fun _ => 1/2)
          { (⟨c3Calm, ⟨(), false⟩, [], [], []⟩ : BotState Unit) with
            bridge := (getPositions (fun _ => 1/2) c3Calm).2 } []
          ((getPositions (fun _ => 1/2) c3Calm).2).positions).2.filterMap
            CheckEntry.record) ∧
    ((manageLoop (fun (p : Unit) _ _ => p) (fun _ => 0) (fun _ => 1/2)
        { (⟨c3Calm, ⟨(), false⟩, [], [], []⟩ : BotState Unit) with
          bridge := (getPositions (fun _ => 1/2) c3Calm).2 } []
        ((getPositions (fun _ => 1/2) c3Calm).2).positions).1.learnCalls =
      ([] : List (TradeAction × ℚ)) ++
        (manageLoop (fun (p : Unit) _ _ => p) (fun _ => 0) (fun _ => 1/2)
          { (⟨c3Calm, ⟨(), false⟩, [], [], []⟩ : BotState Unit) with
            bridge := (getPositions (fun _ => 1/2) c3Calm).2 } []
          ((getPositions (fun _ => 1/2) c3Calm).2).positions).2.filterMap
            CheckEntry.learn) ∧
    (∀ c ∈ (manageLoop (fun (p : Unit) _ _ => p) (fun _ => 0) (fun _ => 1/2)
        { (⟨c3Calm, ⟨(), false⟩, [], [], []⟩ : BotState Unit) with
          bridge := (getPositions (fun _ => 1/2) c3Calm).2 } []
        ((getPositions (fun _ => 1/2) c3Calm).2).positions).2,
      (c.present = true → c.record = none ∧ c.learn = none) ∧
      (c.present = false → ∃ r pl, c.record = some r ∧ c.learn = some pl ∧
        r.action = .CLOSE ∧ r.id = c.ticket ∧ r.profit = some pl.2)) :=
  managePositions_per_check_records (fun (p : Unit) _ _ => p) (fun _ => 0) (fun _ => 1/2)
    ⟨c3Calm, ⟨(), false⟩, [], [], []⟩ [] (by decide)

set_option maxRecDepth 1000000 in
/-- Counterexample to C4 as stated: ticket 7000002 is in the previously
known open-position set and absent from the re-queried set after the tick
(the price dip at draw 529 auto-closed it during the *second* iteration's
query, after its own check had passed), yet no CLOSE record is appended or
emitted and no online update is invoked. -/
theorem c4_vanished_ticket_unrecorded :
    c4Baseline.map MT5Position.ticket = [7000002, 7000005] ∧
    c4Post.bridge.positions.map MT5Position.ticket = [7000005] ∧
    c4Post.tradeHistory = [] ∧ c4Post.emitted = [] ∧ c4Post.learnCalls = [] :=
  ⟨by decide, by decide, by decide, by decide, by decide⟩

